import Mathlib

/-!
# meritDraft-backend: draft-generation pipeline, verified model

A shallow embedding of the asynchronous draft-generation pipeline of
meritDraft-backend (Go): the job orchestrator (`GenerateDraft` /
`ProcessDraft` in the service layer), the legal-context retriever and its
embedding-call retry loop (`generateQueryEmbedding`, `retrieveContext`),
the completion-call wrapper and its retry loop (`callGenerationAPI`,
`generateProng1Section`, `generateProng2`), the fact formatter
(`formatClientFacts`), the step initializer (`initializeSteps`), the
document assembler (`assembleDocument`), and the similarity-search query
(`SearchByCriterion` in the legal-chunk repository).

Modelling conventions:
* Go strings are modelled as `List Char` (`GoStr`); the byte-level string
  operations of the source coincide with the character-level ones here on
  ASCII data, which is what every fixed string in the pipeline is.
* Go `float64` JSON numbers are modelled by their exact rational value
  (`ℚ`); `fmt` verbs are implemented over `Int`/`Nat` arithmetic on the
  numerator and denominator.
* Network calls (embedding service, completion service, SQL) are modelled
  by explicit outcome oracles passed as arguments, one outcome per attempt;
  the job and petition stores are modelled as reliable (they are external
  collaborators accessed through narrow interfaces).
* `log.Printf` calls, UUIDs and timestamps carry no pipeline-visible data
  and are not modelled.
-/

namespace MeritDraft

/-- Go strings, modelled as lists of characters. -/
abbrev GoStr := List Char

/-- Coerce a Lean string literal to the `GoStr` model. -/
def gs (s : String) : GoStr := s.data

/-- Go `strings.HasPrefix` over the character model. -/
def goHasPrefixChars : GoStr → GoStr → Bool
  | _, [] => true
  | [], _ :: _ => false
  | c :: s, p :: ps => c = p && goHasPrefixChars s ps

/-- Go `strings.Contains` over the character model. -/
def goContains : GoStr → GoStr → Bool
  | [], sub => sub.isEmpty
  | s@(_ :: rest), sub => goHasPrefixChars s sub || goContains rest sub

/-- Go `unicode.IsSpace` (the White_Space property, as listed by the Go
documentation: `\t`, `\n`, `\v`, `\f`, `\r`, space, U+0085, U+00A0 and the
Unicode Zs/Zl/Zp space code points). -/
def isGoSpace (c : Char) : Bool :=
  c.toNat = 9 || c.toNat = 10 || c.toNat = 11 || c.toNat = 12 ||
  c.toNat = 13 || c.toNat = 32 || c.toNat = 0x85 || c.toNat = 0xA0 ||
  c.toNat = 0x1680 || (0x2000 ≤ c.toNat && c.toNat ≤ 0x200A) ||
  c.toNat = 0x2028 || c.toNat = 0x2029 || c.toNat = 0x202F ||
  c.toNat = 0x205F || c.toNat = 0x3000

/-- Go `strings.TrimSpace`: drop leading and trailing white space. -/
def goTrimSpace (s : GoStr) : GoStr :=
  ((s.dropWhile isGoSpace).reverse.dropWhile isGoSpace).reverse

/-- Fuel-driven worker for `goFields` (fuel bounds the remaining length, so
the recursion is structural and kernel-reducible). -/
def goFieldsAux : Nat → GoStr → List GoStr
  | 0, _ => []
  | _ + 1, [] => []
  | fuel + 1, c :: rest =>
    if isGoSpace c then goFieldsAux fuel rest
    else (c :: rest.takeWhile (fun x => !isGoSpace x)) ::
      goFieldsAux fuel (rest.dropWhile (fun x => !isGoSpace x))

/-- Go `strings.Fields`: split around runs of white space. -/
def goFields (s : GoStr) : List GoStr := goFieldsAux s.length s

/-- Go `strings.Join(words, " ")`. -/
def joinSpace : List GoStr → GoStr
  | [] => []
  | [w] => w
  | w :: r :: rest => w ++ ' ' :: joinSpace (r :: rest)

/-- Go `strings.ToLower`, modelled on the ASCII range (every fixed string
compared against in the pipeline is ASCII). -/
def goToLowerChar (c : Char) : Char :=
  if 'A' ≤ c ∧ c ≤ 'Z' then Char.ofNat (c.toNat + 32) else c

/-- Character-wise lowering of a Go string. -/
def goToLower (s : GoStr) : GoStr := s.map goToLowerChar

/-! ## Field-of-expertise sanitization (service/draft_service.go) -/

/-- The fixed filler phrases stripped by `sanitizeFieldOfExpertise`, in
source order. -/
def fillerPrefixes : List GoStr :=
  [gs "I am a", gs "I am an", gs "I specialize in", gs "Field of",
   gs "Area of"]

/-- One iteration of the prefix-stripping loop: if the lowered field starts
with the lowered prefix, drop `len(prefix)` characters and trim. -/
def stripPrefixStep (field p : GoStr) : GoStr :=
  if goHasPrefixChars (goToLower field) (goToLower p) then
    goTrimSpace (field.drop p.length)
  else field

/-- `sanitizeFieldOfExpertise`: trim, strip the filler prefixes in order,
keep the first 5 whitespace-delimited words. -/
def sanitizeFieldOfExpertise (field : GoStr) : GoStr :=
  let f := goTrimSpace field
  let f := fillerPrefixes.foldl stripPrefixStep f
  joinSpace ((goFields f).take 5)

/-! ## Dynamic criterion-detail values and `fmt` verbs

Go decodes the JSONB `criteria_details` column into
`map[string]interface{}` bags whose values are strings, numbers
(`float64` from JSON, `int`/`int64` when constructed in Go), nested
arrays and maps.  `GoVal` is that dynamic value universe; type
assertions in the source become constructor matches. -/

/-- A dynamic Go value held in a criterion-detail bag. -/
inductive GoVal where
  | str (s : GoStr)
  | numF (q : ℚ)
  | numI (n : Int)
  | numI64 (n : Int)
  | boolean (b : Bool)
  | arr (elems : List GoVal)
  | obj (fields : List (GoStr × GoVal))

/-- A criterion-detail bag (`models.CriteriaDetail`,
`map[string]interface{}`), as an association list with distinct keys. -/
abbrev CriteriaDetail := List (GoStr × GoVal)

/-- Go map indexing `details[key]`; `none` is the missing-key case. -/
def mlookup : List (GoStr × GoVal) → GoStr → Option GoVal
  | [], _ => none
  | (k, v) :: rest, key => if k = key then some v else mlookup rest key

/-- Go `fmt` `%d` on an integer. -/
def goFmtInt (n : Int) : GoStr := gs (toString n)

/-- Round a rational to the nearest integer, ties to even — the rounding
used by Go `fmt` `%.0f` on a `float64`.  Computed on the numerator and
denominator so the kernel can evaluate it.  (Go prints `-0` for values in
`(-0.5, 0)`; no negative citation counts or paper counts occur.) -/
def roundHalfToEven (q : ℚ) : Int :=
  let d : Int := (q.den : Int)
  let f := q.num.fdiv d
  let rem2 := 2 * (q.num - f * d)
  if rem2 < d then f
  else if d < rem2 then f + 1
  else if f % 2 = 0 then f else f + 1

/-- Go `fmt` `%.0f` on a `float64` value. -/
def goFmtF0 (q : ℚ) : GoStr := goFmtInt (roundHalfToEven q)

/-- Two-digit zero-padded rendering of `n < 100`. -/
def twoDigits (n : Nat) : GoStr :=
  if n < 10 then '0' :: gs (toString n) else gs (toString n)

/-- Go `fmt` `%.2f` on a `float64` value: round `100·q` half to even, then
print with two decimals (nonnegative case; impact factors are positive). -/
def goFmtF2 (q : ℚ) : GoStr :=
  let d : Int := (q.den : Int)
  let n := q.num * 100
  let f := n.fdiv d
  let rem2 := 2 * (n - f * d)
  let scaled := if rem2 < d then f
    else if d < rem2 then f + 1
    else if f % 2 = 0 then f else f + 1
  goFmtInt (scaled.fdiv 100) ++ '.' :: twoDigits (scaled % 100).toNat

/-- Go `fmt` `%v` of a `float64`: an integral value prints as a plain
integer; a fractional value prints by its exact finite decimal expansion
(the JSON decimal it was decoded from).  Non-decimal rationals (which no
`float64` is) fall back to `num/den`.  Reached only by the generic `%v`
branch of `formatClientFacts`. -/
def goFmtFloatV (q : ℚ) : GoStr :=
  if q.den = 1 then goFmtInt q.num
  else
    match (List.range 30).find? (fun k => (q * (10 : ℚ) ^ k).den = 1) with
    | some k =>
      let scaled := (q * (10 : ℚ) ^ k).num
      let sign : GoStr := if scaled < 0 then ['-'] else []
      let a := scaled.natAbs
      let frac := gs (toString (a % 10 ^ k))
      sign ++ gs (toString (a / 10 ^ k)) ++ '.' ::
        (List.replicate (k - frac.length) '0' ++ frac)
    | none => goFmtInt q.num ++ '/' :: gs (toString q.den)

/-- Lexicographic (byte-code) order on Go strings, used by `fmt` when it
sorts map keys. -/
def goStrLeb : GoStr → GoStr → Bool
  | [], _ => true
  | _ :: _, [] => false
  | a :: as, b :: bs =>
    if a.toNat < b.toNat then true
    else if b.toNat < a.toNat then false
    else goStrLeb as bs

/-- Insert a rendered `key ↦ text` pair into a key-sorted list. -/
def insertByKey (p : GoStr × GoStr) :
    List (GoStr × GoStr) → List (GoStr × GoStr)
  | [] => [p]
  | q :: rest =>
    if goStrLeb p.1 q.1 then p :: q :: rest else q :: insertByKey p rest

/-- Sort rendered map entries by key, as Go `fmt` does for maps. -/
def sortByKey : List (GoStr × GoStr) → List (GoStr × GoStr)
  | [] => []
  | p :: rest => insertByKey p (sortByKey rest)

mutual

/-- Go `fmt` `%v` of a dynamic value. -/
def goFmtV : GoVal → GoStr
  | .str s => s
  | .numF q => goFmtFloatV q
  | .numI n => goFmtInt n
  | .numI64 n => goFmtInt n
  | .boolean b => if b then gs "true" else gs "false"
  | .arr es => '[' :: (joinSpace (goFmtVList es) ++ [']'])
  | .obj fields =>
    gs "map[" ++
      joinSpace ((sortByKey (goFmtVFields fields)).map
        fun kv => kv.1 ++ ':' :: kv.2) ++ [']']

/-- `%v` of each element of a Go slice. -/
def goFmtVList : List GoVal → List GoStr
  | [] => []
  | v :: rest => goFmtV v :: goFmtVList rest

/-- `%v` of each value of a Go map, keeping the keys for sorting. -/
def goFmtVFields : List (GoStr × GoVal) → List (GoStr × GoStr)
  | [] => []
  | (k, v) :: rest => (k, goFmtV v) :: goFmtVFields rest

end

/-! ## Fact formatter (`formatClientFacts`) -/

/-- The `Significance:`/`Impact:` trailing hint lines shared by every
branch of `formatClientFacts`. -/
def impactHintLines (f : List (GoStr × GoVal)) : GoStr :=
  (match mlookup f (gs "importance") with
    | some (.str imp) => if imp ≠ [] then gs "\nSignificance: " ++ imp else []
    | _ => []) ++
  (match mlookup f (gs "impact") with
    | some (.str imp) => if imp ≠ [] then gs "\nImpact: " ++ imp else []
    | _ => [])

/-- One entry of the `awards` loop body of `formatClientFacts`. -/
def formatAwardEntry (award : GoVal) : GoStr :=
  match award with
  | .obj a =>
    (match mlookup a (gs "name") with
      | some (.str name) => gs "Award: " ++ name
      | _ => []) ++
    (match mlookup a (gs "date") with
      | some (.str date) => gs " (Date: " ++ date ++ gs ")"
      | _ => []) ++
    (match mlookup a (gs "description") with
      | some (.str desc) =>
        if desc ≠ [] then gs "\nDescription: " ++ desc else []
      | _ => []) ++
    impactHintLines a
  | _ => []

/-- The `awards` loop of `formatClientFacts` (`"\n"` separator between
entries). -/
def formatAwardsList : Nat → List GoVal → GoStr
  | _, [] => []
  | i, a :: rest =>
    (if 0 < i then ['\n'] else []) ++ formatAwardEntry a ++
      formatAwardsList (i + 1) rest

/-- The citations fragment of one publication entry: the exact text the
three-way `float64`/`int`/`int64` type switch of `formatClientFacts`
appends for the `citations` field. -/
def citationsLine (p : List (GoStr × GoVal)) : GoStr :=
  match mlookup p (gs "citations") with
  | some (.numF q) => gs "\nCitations: " ++ goFmtF0 q
  | some (.numI n) => gs "\nCitations: " ++ goFmtInt n
  | some (.numI64 n) => gs "\nCitations: " ++ goFmtInt n
  | _ => []

/-- The body of one `authorship` publication entry (after the
`Publication N:` label). -/
def formatPublicationBody (pub : GoVal) : GoStr :=
  match pub with
  | .obj p =>
    (match mlookup p (gs "title") with
      | some (.str title) => gs "\nTitle: " ++ title
      | _ => []) ++
    (match mlookup p (gs "journal") with
      | some (.str journal) => gs "\nJournal: " ++ journal
      | _ => []) ++
    (match mlookup p (gs "impact_factor") with
      | some (.numF q) =>
        if 0 < q then gs "\nImpact Factor: " ++ goFmtF2 q else []
      | _ => []) ++
    citationsLine p ++
    impactHintLines p
  | _ => []

/-- The `authorship` publications loop of `formatClientFacts`
(`"\n\n"` separator, `Publication N:` label). -/
def formatPublicationsList : Nat → List GoVal → GoStr
  | _, [] => []
  | i, pub :: rest =>
    (if 0 < i then gs "\n\n" else []) ++
      (gs "Publication " ++ goFmtInt (i + 1) ++ [':']) ++
      formatPublicationBody pub ++
      formatPublicationsList (i + 1) rest

/-- `formatClientFacts`: render a criterion-detail bag as the verbose
CLIENT FACTS block, dispatching on the criterion type. -/
def formatClientFacts (criterion : GoStr) (details : CriteriaDetail) :
    GoStr :=
  if criterion = gs "awards" then
    match mlookup details (gs "awards") with
    | some (.arr awards) => formatAwardsList 0 awards
    | _ => []
  else if criterion = gs "judging" then
    (match mlookup details (gs "venue") with
      | some (.str venue) => gs "Venue: " ++ venue ++ ['\n']
      | _ => []) ++
    (match mlookup details (gs "role") with
      | some (.str role) => gs "Role: " ++ role ++ ['\n']
      | _ => []) ++
    (match mlookup details (gs "papers_reviewed") with
      | some (.numF q) => gs "Papers Reviewed: " ++ goFmtF0 q
      | _ => []) ++
    impactHintLines details
  else if criterion = gs "authorship" then
    match mlookup details (gs "publications") with
    | some (.arr pubs) => formatPublicationsList 0 pubs
    | _ => []
  else
    (match mlookup details (gs "description") with
      | some (.str desc) => desc
      | _ => goFmtV (.obj details)) ++
    impactHintLines details

/-! ## Job orchestrator data model and `GenerateDraft` -/

/-- `models.Petition`, restricted to the fields the pipeline reads.
UUIDs, timestamps, file references and lifecycle status are not consumed
by the generation pipeline and are omitted. -/
structure Petition where
  clientName : GoStr
  fieldOfExpertise : GoStr
  selectedCriteria : List GoStr
  criteriaDetails : List (GoStr × CriteriaDetail)
  generatedContent : Option GoStr

/-- Go map indexing into `petition.CriteriaDetails`. -/
def clookup : List (GoStr × CriteriaDetail) → GoStr → Option CriteriaDetail
  | [], _ => none
  | (k, v) :: rest, key => if k = key then some v else clookup rest key

/-- One entry of `models.GenerationSteps`. -/
structure GenerationStep where
  name : GoStr
  status : GoStr

/-- `models.GenerationJobStatus` values. -/
inductive JobStatus where
  | pending
  | inProgress
  | completed
  | failed
deriving DecidableEq

/-- `getCriterionStepName`: the fixed criterion → step-name table with its
generic fallback. -/
def getCriterionStepName (criterion : GoStr) : GoStr :=
  if criterion = gs "awards" then gs "Drafting Awards Criterion"
  else if criterion = gs "membership" then gs "Drafting Membership Criterion"
  else if criterion = gs "media_coverage" then
    gs "Drafting Media Coverage Criterion"
  else if criterion = gs "judging" then gs "Drafting Judging Criterion"
  else if criterion = gs "original_contributions" then
    gs "Drafting Original Contributions Criterion"
  else if criterion = gs "authorship" then gs "Drafting Authorship Criterion"
  else if criterion = gs "exhibitions" then gs "Drafting Exhibitions Criterion"
  else if criterion = gs "critical_role" then
    gs "Drafting Critical Role Criterion"
  else if criterion = gs "high_salary" then gs "Drafting High Salary Criterion"
  else if criterion = gs "commercial_success" then
    gs "Drafting Commercial Success Criterion"
  else gs "Drafting " ++ criterion ++ gs " Criterion"

/-- `initializeSteps`: one pending step per selected criterion, then the
two fixed trailing steps. -/
def initializeSteps (criteria : List GoStr) : List GenerationStep :=
  (criteria.map fun c => ⟨getCriterionStepName c, gs "pending"⟩) ++
    [⟨gs "Final Merits Determination", gs "pending"⟩,
     ⟨gs "Assembling Document", gs "pending"⟩]

/-- The typed errors of the job-creation path (`ErrPetitionNotFound`,
`ErrMissingRequiredData`, `ErrJobCreationFailed`). -/
inductive DraftErr where
  | petitionNotFound
  | missingRequiredData
  | jobCreationFailed
deriving DecidableEq

/-- The job record persisted by `GenerateDraft` (identity and petition
reference omitted; `Status` and `Steps` are what the claims read). -/
structure CreatedJob where
  status : JobStatus
  steps : List GenerationStep

/-- `GenerateDraft`: validate the petition, then create a pending job.
`petLookup` is the petition-store read (`none` = not found); `createOk`
is the job-store write outcome.  The second component records whether a
job record was persisted. -/
def GenerateDraft (petLookup : Option Petition) (createOk : Bool) :
    Except DraftErr CreatedJob × Bool :=
  match petLookup with
  | none => (.error .petitionNotFound, false)
  | some petition =>
    if petition.clientName = [] then (.error .missingRequiredData, false)
    else if petition.fieldOfExpertise = [] then
      (.error .missingRequiredData, false)
    else if petition.selectedCriteria.length = 0 then
      (.error .missingRequiredData, false)
    else if petition.criteriaDetails.length = 0 then
      (.error .missingRequiredData, false)
    else
      let job : CreatedJob :=
        ⟨.pending, initializeSteps petition.selectedCriteria⟩
      if createOk then (.ok job, true)
      else (.error .jobCreationFailed, false)

/-! ## Legal-chunk repository: `SearchByCriterion`

The SQL query of `LegalChunkRepository.SearchByCriterion` is modelled
relationally: the `legal_chunks` table is a list of rows, the `WHERE`
clause a filter, `ORDER BY embedding <=> $1` a sort by the pgvector
cosine-distance operator (passed in as `dist`, an opaque key function:
its floating-point value never matters, only the ordering it induces),
and `LIMIT` a take. -/

/-- A row of the `legal_chunks` table (`models.LegalChunk`), with the
columns the query touches.  `criterion_tag` is nullable in the schema,
hence an `Option`. -/
structure LegalChunk where
  text : GoStr
  sourceType : GoStr
  sourceDocument : GoStr
  caseCitation : Option GoStr
  appealCitation : Option GoStr
  criterionTag : Option GoStr
  legalStandard : Option GoStr
  legalTest : Option GoStr
  isWinningArgument : Bool
  isHolding : Bool
  visaType : GoStr
  embedding : List ℚ

/-- The `WHERE` clause of `SearchByCriterion`: criterion tag (or `IS
NULL` when the empty criterion is given), source type, visa type, and the
two built-in purity filters. -/
def rowMatches (criterion sourceType : GoStr) (c : LegalChunk) : Bool :=
  (if criterion = [] then decide (c.criterionTag = none)
   else decide (c.criterionTag = some criterion)) &&
  decide (c.sourceType = sourceType) &&
  decide (c.visaType = gs "O-1") &&
  (decide (c.sourceType ≠ gs "appeal_decision") || c.isWinningArgument) &&
  (decide (c.sourceType ≠ gs "precedent_case") || c.isHolding)

/-- `SearchByCriterion`: reject non-768-dimensional query embeddings,
else return the `limit` nearest matching rows by ascending distance. -/
def SearchByCriterion (dist : List ℚ → List ℚ → ℚ)
    (table : List LegalChunk) (embedding : List ℚ)
    (criterion sourceType : GoStr) (limit : Nat) :
    Except GoStr (List LegalChunk) :=
  if embedding.length ≠ 768 then
    .error (gs "embedding must be 768 dimensions")
  else
    .ok ((List.insertionSort
      (fun a b => dist embedding a.embedding ≤ dist embedding b.embedding)
      (table.filter (rowMatches criterion sourceType))).take limit)

/-! ## Embedding client: `generateQueryEmbedding`

The retry loop of `generateQueryEmbedding` (the `GEMINI_API_KEY`
check, query-text construction and request marshalling that precede it
are configuration, not claim-relevant).  One `EmbedOutcome` per HTTP
attempt.  On success the source additionally normalizes the vector to
unit L2 norm in floating point; the success payload here is the decoded
vector (no claim refers to the normalized values). -/

/-- Retry ceiling of both external clients (`maxRetries`). -/
def maxRetries : Nat := 3

/-- Initial backoff in seconds (`initialBackoff`). -/
def initialBackoff : Nat := 1

/-- Decoded body of one embedding HTTP 200 response. -/
inductive EmbedBody where
  | decodeFail
  | decoded (values : List ℚ)

/-- Outcome of one embedding HTTP attempt. -/
inductive EmbedOutcome where
  | transportErr
  | resp (status : Nat) (body : EmbedBody)

/-- The distinct error values `generateQueryEmbedding` can return; each
constructor is a distinct Go error (`fmt.Errorf` without `%w` wrapping of
`ErrEmbeddingFailed`, so none of them `errors.Is`-matches the
`embeddingFailed` sentinel). -/
inductive EmbedErr where
  | sendFailedAfter (attempts : Nat)
  | decodeFailed
  | apiError (status : Nat)
  | apiErrorAfter (attempts status : Nat)
  | embeddingFailed
deriving DecidableEq

/-- Observable run of the embedding retry loop: the returned value, the
number of HTTP attempts performed, and the seconds slept between them. -/
structure EmbedRun where
  result : Except EmbedErr (List ℚ)
  attempts : Nat
  sleeps : List Nat

/-- The retry loop of `generateQueryEmbedding`, recursing on the number
of remaining attempts.  The `0` base case is the `return nil,
ErrEmbeddingFailed` line after the loop (unreachable, since every
last-attempt branch returns). -/
def generateQueryEmbeddingAux (f : Nat → EmbedOutcome) :
    Nat → Nat → List Nat → Nat → EmbedRun
  | attempt, _, sleeps, 0 => ⟨.error .embeddingFailed, attempt, sleeps⟩
  | attempt, backoff, sleeps, r + 1 =>
    let sleeps := if 0 < attempt then sleeps ++ [backoff] else sleeps
    let backoff' := if 0 < attempt then backoff * 2 else backoff
    match f attempt with
    | .transportErr =>
      if r = 0 then ⟨.error (.sendFailedAfter maxRetries), attempt + 1, sleeps⟩
      else generateQueryEmbeddingAux f (attempt + 1) backoff' sleeps r
    | .resp status body =>
      if status = 200 then
        match body with
        | .decodeFail =>
          if r = 0 then ⟨.error .decodeFailed, attempt + 1, sleeps⟩
          else generateQueryEmbeddingAux f (attempt + 1) backoff' sleeps r
        | .decoded values => ⟨.ok values, attempt + 1, sleeps⟩
      else if status = 400 ∨ status = 401 then
        ⟨.error (.apiError status), attempt + 1, sleeps⟩
      else if r = 0 then
        ⟨.error (.apiErrorAfter maxRetries status), attempt + 1, sleeps⟩
      else generateQueryEmbeddingAux f (attempt + 1) backoff' sleeps r

/-- `generateQueryEmbedding`, as a function of the per-attempt HTTP
outcomes. -/
def generateQueryEmbedding (f : Nat → EmbedOutcome) : EmbedRun :=
  generateQueryEmbeddingAux f 0 initialBackoff [] maxRetries

/-! ## Completion client: `callGenerationAPI` and the retry loops -/

/-- One decoded candidate of a generation response: its part texts and
finish reason. -/
structure GenCandidate where
  parts : List GoStr
  finishReason : GoStr

/-- Decoded generation API response body. -/
structure GenApiResp where
  candidates : List GenCandidate
  blockReason : GoStr
  errorMessage : GoStr
  errorCode : Int

/-- Outcome of one generation HTTP round trip. -/
inductive GenHttpOutcome where
  | transportErr
  | httpError (status : Nat) (body : GoStr)
  | decodeFail
  | ok (resp : GenApiResp)

/-- The distinct error values `callGenerationAPI` can return, one
constructor per `return "", fmt.Errorf(...)` site. -/
inductive GenErr where
  | transportErr
  | httpError (status : Nat) (body : GoStr)
  | decodeError
  | apiErrorPayload (message : GoStr) (code : Int)
  | blocked (reason : GoStr)
  | noCandidates
  | candidateNoParts (finishReason : GoStr)
  | emptyContent
deriving DecidableEq

/-- The candidate loop of `callGenerationAPI`: fail at the first
candidate with no content parts, otherwise concatenate the non-empty
part texts of every candidate. -/
def collectCandidateText : List GenCandidate → Except GenErr GoStr
  | [] => .ok []
  | c :: rest =>
    if c.parts.length = 0 then .error (.candidateNoParts c.finishReason)
    else match collectCandidateText rest with
      | .error e => .error e
      | .ok restText =>
        .ok ((c.parts.filter (fun t => t ≠ [])).foldr (· ++ ·) [] ++ restText)

/-- `callGenerationAPI`: a single HTTP call — no internal retry.  Every
abnormal condition (non-200 status, decode failure, API error payload,
content-safety block, zero candidates, part-less candidate, empty
content) returns an error to the caller. -/
def callGenerationAPI (outcome : GenHttpOutcome) : Except GenErr GoStr :=
  match outcome with
  | .transportErr => .error .transportErr
  | .httpError status body => .error (.httpError status body)
  | .decodeFail => .error .decodeError
  | .ok resp =>
    if resp.errorMessage ≠ [] then
      .error (.apiErrorPayload resp.errorMessage resp.errorCode)
    else if resp.blockReason ≠ [] then .error (.blocked resp.blockReason)
    else if resp.candidates.length = 0 then .error .noCandidates
    else match collectCandidateText resp.candidates with
      | .error e => .error e
      | .ok text => if text = [] then .error .emptyContent else .ok text

/-- Observable result of one of the two section-generation retry loops. -/
inductive LoopResult where
  | success (content : GoStr) (attempts : Nat)
  | failedErr (e : GenErr) (attempts : Nat)
  | failedEmpty (attempts : Nat)
deriving DecidableEq

/-- The shared shape of the two retry loops around `callGenerationAPI`
(`generateProng1Section` lines and `generateProng2` lines are textually
identical up to the error message): any error is retried until the last
attempt; empty-but-ok content is also retried; non-empty content breaks
the loop.  The `0` base case is the post-loop `content == ""` check
(unreachable). -/
def genRetryAux (call : Nat → Except GenErr GoStr) : Nat → Nat → LoopResult
  | attempt, 0 => .failedEmpty attempt
  | attempt, r + 1 =>
    match call attempt with
    | .error e =>
      if r = 0 then .failedErr e (attempt + 1)
      else genRetryAux call (attempt + 1) r
    | .ok s =>
      if s ≠ [] then .success s (attempt + 1)
      else if r = 0 then .failedEmpty (attempt + 1)
      else genRetryAux call (attempt + 1) r

/-- The retry loop, started at attempt 0 with `maxRetries` budget. -/
def genRetryLoop (call : Nat → Except GenErr GoStr) : LoopResult :=
  genRetryAux call 0 maxRetries

/-- Errors surfaced by `generateProng1Section` (and, with a different
message, by `generateProng2`): the wrapped last-attempt error or the
`ErrGenerationFailed` sentinel for empty content. -/
inductive GenerateErr where
  | afterAttempts (e : GenErr)
  | generationFailed
deriving DecidableEq

/-- `generateProng1Section`, reduced to its retry loop over per-attempt
HTTP outcomes (the prompt it assembles is passed opaquely through the
oracle; its construction does not affect the retry policy). -/
def generateProng1Section (outcomes : Nat → GenHttpOutcome) :
    Except GenerateErr GoStr :=
  match genRetryLoop (fun attempt => callGenerationAPI (outcomes attempt)) with
  | .success s _ => .ok s
  | .failedErr e _ => .error (.afterAttempts e)
  | .failedEmpty _ => .error .generationFailed

/-! ## `ProcessDraft`: the long-running orchestration -/

/-- `getCriterionTitle`: the fixed criterion → section-title table. -/
def getCriterionTitle (criterion : GoStr) : GoStr :=
  if criterion = gs "awards" then
    gs "Criterion 1: Receipt of Nationally or Internationally Recognized Prizes or Awards"
  else if criterion = gs "membership" then
    gs "Criterion 2: Membership in Associations"
  else if criterion = gs "media_coverage" then
    gs "Criterion 3: Published Material About the Person"
  else if criterion = gs "judging" then
    gs "Criterion 4: Participation as a Judge"
  else if criterion = gs "original_contributions" then
    gs "Criterion 5: Original Scientific Contributions"
  else if criterion = gs "authorship" then
    gs "Criterion 6: Scholarly Articles"
  else if criterion = gs "exhibitions" then
    gs "Criterion 7: Display of Work"
  else if criterion = gs "critical_role" then
    gs "Criterion 8: Critical or Essential Capacity"
  else if criterion = gs "high_salary" then
    gs "Criterion 9: High Salary"
  else if criterion = gs "commercial_success" then
    gs "Criterion 10: Commercial Success"
  else gs "Criterion: " ++ criterion

/-- `getCriterionCitation`: the fixed criterion → regulatory-citation
table, empty string fallback. -/
def getCriterionCitation (criterion : GoStr) : GoStr :=
  if criterion = gs "awards" then gs "(8 C.F.R. § 214.2(o)(3)(iii)(A))"
  else if criterion = gs "membership" then
    gs "(8 C.F.R. § 214.2(o)(3)(iii)(B))"
  else if criterion = gs "media_coverage" then
    gs "(8 C.F.R. § 214.2(o)(3)(iii)(C))"
  else if criterion = gs "judging" then gs "(8 C.F.R. § 214.2(o)(3)(iii)(D))"
  else if criterion = gs "original_contributions" then
    gs "(8 C.F.R. § 214.2(o)(3)(iii)(E))"
  else if criterion = gs "authorship" then
    gs "(8 C.F.R. § 214.2(o)(3)(iii)(F))"
  else if criterion = gs "exhibitions" then
    gs "(8 C.F.R. § 214.2(o)(3)(iii)(G))"
  else if criterion = gs "critical_role" then
    gs "(8 C.F.R. § 214.2(o)(3)(iii)(H))"
  else if criterion = gs "high_salary" then
    gs "(8 C.F.R. § 214.2(o)(3)(iii)(I))"
  else if criterion = gs "commercial_success" then
    gs "(8 C.F.R. § 214.2(o)(3)(iii)(J))"
  else []

/-- `RetrievedContext`: the ephemeral per-criterion retrieval result. -/
structure RetrievedContext where
  regulations : List LegalChunk
  appeals : List LegalChunk
  cases : List LegalChunk

/-- The `&RetrievedContext{}` empty value substituted when retrieval
fails. -/
def RetrievedContext.empty : RetrievedContext := ⟨[], [], []⟩

/-- `extractCitations`: the fixed regulatory citation (when the
criterion has one) followed by the appeal and case citations present in
the retrieved context. -/
def extractCitations (context : RetrievedContext) (criterion : GoStr) :
    List GoStr :=
  (if getCriterionCitation criterion ≠ [] then [getCriterionCitation criterion]
   else []) ++
  context.appeals.filterMap (fun a => a.appealCitation) ++
  context.cases.filterMap (fun c => c.caseCitation)

/-- `retrieveContext`: fails exactly when the embedding call fails; a
failed similarity search for one partition degrades to an empty list for
that partition.  `embedRes` is the `generateQueryEmbedding` result;
`dist` and `table` parameterize the legal-chunk store; the three
searches are the source's `SearchByCriterion` calls with source types
`regulation` / `appeal_decision` / `precedent_case` and limits
3 / 3 / 2. -/
def retrieveContext (criterion : GoStr)
    (embedRes : Except EmbedErr (List ℚ))
    (dist : List ℚ → List ℚ → ℚ) (table : List LegalChunk) :
    Except GoStr RetrievedContext :=
  match embedRes with
  | .error _ => .error (gs "failed to generate embedding")
  | .ok embedding =>
    let regulations :=
      match SearchByCriterion dist table embedding criterion
          (gs "regulation") 3 with
      | .ok chunks => chunks
      | .error _ => []
    let appeals :=
      match SearchByCriterion dist table embedding criterion
          (gs "appeal_decision") 3 with
      | .ok chunks => chunks
      | .error _ => []
    let cases :=
      match SearchByCriterion dist table embedding criterion
          (gs "precedent_case") 2 with
      | .ok chunks => chunks
      | .error _ => []
    .ok ⟨regulations, appeals, cases⟩

/-- `DraftSection`: one generated section. -/
structure DraftSection where
  title : GoStr
  content : GoStr
  citations : List GoStr

/-- The mutable job-record fields `ProcessDraft` writes through the job
store (identity and timestamps omitted). -/
structure JobState where
  status : JobStatus
  steps : List GenerationStep
  currentStep : Option GoStr
  errorMessage : Option GoStr

/-- The step-mutation loop of `updateStepStatus`: set the status of the
first step with the given name. -/
def setStepStatus : List GenerationStep → GoStr → GoStr →
    List GenerationStep
  | [], _, _ => []
  | s :: rest, name, status =>
    if s.name = name then ⟨s.name, status⟩ :: rest
    else s :: setStepStatus rest name status

/-- `updateStepStatus` as a state update: mutate the step list and move
the current-step pointer when a step enters `in_progress`. -/
def updateStep (job : JobState) (stepName status : GoStr) : JobState :=
  { job with
    steps := setStepStatus job.steps stepName status
    currentStep :=
      if status = gs "in_progress" then some stepName else job.currentStep }

/-- `markJobFailed` via `jobRepo.Fail`: terminal failed status plus the
error message. -/
def markJobFailed (job : JobState) (errorMessage : GoStr) : JobState :=
  { job with status := .failed, errorMessage := some errorMessage }

/-- Result of a `ProcessDraft` run: the final job record and the
petition's generated-content column after the run. -/
structure ProcessOutcome where
  job : JobState
  petitionContent : Option GoStr

/-- The per-criterion loop of `ProcessDraft` (step 3): mark the step in
progress, look up the criterion details, retrieve context (degrading to
the empty context on error), generate the section, record citations,
mark the step completed.  Returns `none` in the second component when
the loop aborted the run (the job already marked failed). -/
def processCriteriaLoop (pet : Petition)
    (retrieve : GoStr → CriteriaDetail → Except GoStr RetrievedContext)
    (gen1 : GoStr → CriteriaDetail → RetrievedContext → Except GoStr GoStr) :
    List GoStr → JobState → List DraftSection →
    JobState × Option (List DraftSection)
  | [], job, sections => (job, some sections)
  | c :: rest, job, sections =>
    let stepName := getCriterionStepName c
    let job := updateStep job stepName (gs "in_progress")
    match clookup pet.criteriaDetails c with
    | none =>
      (markJobFailed job (gs "missing details for criterion: " ++ c), none)
    | some details =>
      let context := match retrieve c details with
        | .error _ => RetrievedContext.empty
        | .ok ctx => ctx
      match gen1 c details context with
      | .error e =>
        (markJobFailed job
          (gs "failed to generate section for " ++ c ++ gs ": " ++ e), none)
      | .ok content =>
        let sections := sections ++
          [⟨getCriterionTitle c, content, extractCitations context c⟩]
        let job := updateStep job stepName (gs "completed")
        processCriteriaLoop pet retrieve gen1 rest job sections

/-- Go `strings.Join(criteria, ", ")`. -/
def joinComma : List GoStr → GoStr
  | [] => []
  | [w] => w
  | w :: r :: rest => w ++ gs ", " ++ joinComma (r :: rest)

/-- Go `strings.Index` (first occurrence, `-1` when absent), from a
running index. -/
def goIndexOfFrom : GoStr → GoStr → Nat → Int
  | [], sub, i => if sub.isEmpty then (i : Int) else -1
  | s@(_ :: rest), sub, i =>
    if goHasPrefixChars s sub then (i : Int)
    else goIndexOfFrom rest sub (i + 1)

/-- Go `strings.Index`. -/
def goIndexOf (s sub : GoStr) : Int := goIndexOfFrom s sub 0

/-- Go `strings.SplitN(s, "\n", 2)`. -/
def goSplitN2 : GoStr → List GoStr
  | [] => [[]]
  | c :: rest =>
    if c = '\n' then [[], rest]
    else match goSplitN2 rest with
      | [one] => [c :: one]
      | first :: restParts => (c :: first) :: restParts
      | [] => [[c]]

/-- The per-criterion body of the first assembly loop: re-use the
section's own header when its content already starts with the title
(case-insensitively), otherwise prepend the title. -/
def assembleCriterionSection (sec : DraftSection) : GoStr :=
  let contentLower := goToLower (goTrimSpace sec.content)
  if goHasPrefixChars contentLower (goToLower sec.title) then
    sec.content ++ gs "\n\n"
  else
    sec.title ++ gs "\n" ++ sec.content ++ gs "\n\n"

/-- The merits body of the second assembly loop: strip a redundant
"Final Merits Determination" lead-in, up to the first colon when it sits
within the first 100 characters, otherwise up to the first line break
when the first line mentions "final merits". -/
def assembleMeritsSection (sec : DraftSection) : GoStr :=
  let content := sec.content
  let contentLower := goToLower (goTrimSpace content)
  let content :=
    if goHasPrefixChars contentLower (gs "final merits determination") then
      let idx := goIndexOf content (gs ":")
      if 0 < idx ∧ idx < 100 then
        goTrimSpace (content.drop (idx + 1).toNat)
      else
        let lines := goSplitN2 content
        if 1 < lines.length ∧
            goContains (goToLower lines.headI) (gs "final merits") then
          goTrimSpace (lines.getD 1 [])
        else content
    else content
  content ++ gs "\n\n"

/-- `assembleDocument`: the deterministic five-part document. -/
def assembleDocument (petition : Petition) (sections : List DraftSection) :
    GoStr :=
  gs "PETITION FOR O-1A VISA\n\n" ++
  gs "I. INTRODUCTION\n" ++
  petition.clientName ++ gs ", in the field of " ++
    petition.fieldOfExpertise ++ gs "\n\n" ++
  gs "II. QUALIFICATIONS SUMMARY\n" ++
  gs "The client has satisfied the following criteria: " ++
    joinComma petition.selectedCriteria ++ gs "\n\n" ++
  gs "III. REGULATORY CRITERIA\n\n" ++
  ((sections.filter
      (fun s => s.title ≠ gs "Final Merits Determination")).map
      assembleCriterionSection).foldr (· ++ ·) [] ++
  gs "IV. FINAL MERITS DETERMINATION\n" ++
  ((sections.filter
      (fun s => s.title = gs "Final Merits Determination")).map
      assembleMeritsSection).foldr (· ++ ·) [] ++
  gs "V. CONCLUSION\n" ++
  gs "Based on the evidence presented, the client satisfies the requirements for O-1A classification.\n"

/-- `ProcessDraft`: the orchestration (job and petition loaded, job and
petition stores reliable).  `job0` is the stored job record (as built by
`GenerateDraft`); `retrieve`, `gen1` and `gen2` are the
`retrieveContext`, `generateProng1Section` and `generateProng2` calls
abstracted over their network outcomes. -/
def ProcessDraft (pet : Petition) (job0 : JobState)
    (retrieve : GoStr → CriteriaDetail → Except GoStr RetrievedContext)
    (gen1 : GoStr → CriteriaDetail → RetrievedContext → Except GoStr GoStr)
    (gen2 : List DraftSection → Except GoStr GoStr) : ProcessOutcome :=
  let job := { job0 with status := JobStatus.inProgress }
  match processCriteriaLoop pet retrieve gen1 pet.selectedCriteria job [] with
  | (job, none) => ⟨job, pet.generatedContent⟩
  | (job, some sections) =>
    let job := updateStep job (gs "Final Merits Determination")
      (gs "in_progress")
    match gen2 sections with
    | .error e =>
      ⟨markJobFailed job (gs "failed to generate final merits: " ++ e),
        pet.generatedContent⟩
    | .ok finalMeritsContent =>
      let sections := sections ++
        [⟨gs "Final Merits Determination", finalMeritsContent, []⟩]
      let job := updateStep job (gs "Final Merits Determination")
        (gs "completed")
      let job := updateStep job (gs "Assembling Document") (gs "in_progress")
      let assembledContent := assembleDocument pet sections
      let job := updateStep job (gs "Assembling Document") (gs "completed")
      ⟨{ job with status := JobStatus.completed }, some assembledContent⟩

/-! ## `generateProng2`: the Final Merits Determination section -/

/-- The shared system instruction prepended to both generation prompts. -/
def systemInstruction : GoStr :=
  gs "You are an expert O-1A immigration attorney. Use formal legal language. Avoid flowery adjectives. Use objective descriptors only."

/-- The per-attempt prompt truncation: prompts over 30,000 characters are
cut and marked. -/
def truncatePrompt (fullPrompt : GoStr) : GoStr :=
  if 30000 < fullPrompt.length then
    fullPrompt.take 30000 ++ gs "\n\n[Content truncated due to length...]"
  else fullPrompt

/-- `chunk.Text` concatenation with the `"\n\n"` separator used by both
Kazarian and Chawathe accumulation loops. -/
def concatChunkTexts : List LegalChunk → GoStr
  | [] => []
  | c :: rest => c.text ++ gs "\n\n" ++ concatChunkTexts rest

/-- The Final Merits prompt template of `generateProng2`, with its three
`%s` slots filled. -/
def prong2Prompt (kazarianText chawatheText criteriaSummary : GoStr) :
    GoStr :=
  gs "You are an expert O-1A immigration attorney drafting the Final Merits Determination section.\n\nLEGAL STANDARD (Kazarian):\n" ++
  kazarianText ++
  gs "\n\nSTANDARD OF PROOF (Chawathe):\n" ++
  chawatheText ++
  gs "\n\nCRITERIA SATISFIED:\nThe client has satisfied the following criteria:\n" ++
  criteriaSummary ++
  gs "\n\nTASK:\nWrite the \"Final Merits Determination\" section that:\n\n1. Opens by stating the \"Preponderance of the Evidence\" standard (Matter of Chawathe) to frame the legal standard immediately\n2. States the legal standard (Kazarian two-part test)\n3. Summarizes the evidence presented (do not repeat verbatim)\n4. Argues that the totality of evidence demonstrates the client has risen to the very top of the field\n5. Links the criteria together (e.g., \"The client\x27s awards (Criterion 1) are supported by their peer recognition as a Senior Area Chair (Criterion 3), which together with their highly cited publications (Criterion 2) demonstrate sustained impact\")\n6. Concludes by reinforcing the preponderance of evidence standard\n\nOUTPUT REQUIREMENTS:\n- Use formal legal language\n- Include proper citations: (8 C.F.R. § 214.2(o)(3)(iii)) and (Matter of Chawathe, 25 I&N Dec. 369 (AAO 2010))\n- 6-8 paragraphs\n- No markdown formatting\n- Write in third person\n- Do NOT include a section header/title - the content will be inserted under an existing header\n- CRITICAL: When referencing specific numbers (citation counts, award dates, etc.), use the EXACT numbers from the evidence presented in the criteria sections above. Do NOT estimate, round, or aggregate numbers.\n\nTONE CONSTRAINTS (CRITICAL):\n- Do NOT use flowery adjectives (e.g., \"game-changing\", \"revolutionary\", \"esteemed\", \"world-renowned\")\n- Use objective descriptors (e.g., \"significant\", \"highly cited\", \"nationally recognized\", \"peer-reviewed\")\n- Avoid hyperbole and marketing language\n- Maintain professional, factual tone throughout\n\nWrite the section now:"

/-- Observable run of `generateProng2`: the query embedding it searched
with, the two accumulated context texts, the (truncated) prompt it
submitted, and the loop result. -/
structure Prong2Run where
  usedEmbedding : List ℚ
  kazarianText : GoStr
  chawatheText : GoStr
  prompt : GoStr
  result : Except GenerateErr GoStr

/-- `generateProng2`: retrieve Kazarian / Chawathe context — substituting
a 768-dimensional zero vector when the query embedding fails — build the
Final Merits prompt and run the completion retry loop.  `embedRes` is
the `generateQueryEmbedding` result; `dist` and `table` parameterize the
legal-chunk store queried by the two `SearchByCriterion` calls (empty
criterion, source types `regulation` / `appeal_decision`, limit 5 each);
`outcomes` maps attempt index and submitted prompt to
the HTTP outcome.  The `sections` argument of the source is received but
never read (the criteria summary comes from the petition). -/
def generateProng2Core (sections : List DraftSection) (petition : Petition)
    (embedding : List ℚ)
    (dist : List ℚ → List ℚ → ℚ) (table : List LegalChunk)
    (outcomes : Nat → GoStr → GenHttpOutcome) : Prong2Run :=
  let _ := sections
  let kazarianText :=
    match SearchByCriterion dist table embedding [] (gs "regulation") 5 with
    | .ok chunks =>
      concatChunkTexts (chunks.filter fun c =>
        match c.legalStandard with
        | some s => goContains s (gs "Kazarian")
        | none => false)
    | .error _ => []
  let chawatheText :=
    match SearchByCriterion dist table embedding [] (gs "appeal_decision")
        5 with
    | .ok chunks =>
      concatChunkTexts (chunks.filter fun c =>
        match c.appealCitation with
        | some s => goContains s (gs "Chawathe")
        | none => false)
    | .error _ => []
  let criteriaSummary := joinComma (petition.selectedCriteria.map
    getCriterionTitle)
  let prompt := prong2Prompt kazarianText chawatheText criteriaSummary
  let fullPrompt := systemInstruction ++ gs "\n\n" ++ prompt
  let submitted := truncatePrompt fullPrompt
  let result :=
    match genRetryLoop
        (fun attempt => callGenerationAPI (outcomes attempt submitted)) with
    | .success s _ => .ok s
    | .failedErr e _ => .error (.afterAttempts e)
    | .failedEmpty _ => .error .generationFailed
  ⟨embedding, kazarianText, chawatheText, submitted, result⟩

/-- `generateProng2` proper: resolve the query embedding — the
768-dimensional zero vector when `generateQueryEmbedding` failed — then
run the body. -/
def generateProng2 (sections : List DraftSection) (petition : Petition)
    (embedRes : Except EmbedErr (List ℚ))
    (dist : List ℚ → List ℚ → ℚ) (table : List LegalChunk)
    (outcomes : Nat → GoStr → GenHttpOutcome) : Prong2Run :=
  generateProng2Core sections petition
    (match embedRes with
      | .ok values => values
      | .error _ => List.replicate 768 (0 : ℚ))
    dist table outcomes

/-! # Theorems

Shared helper lemmas first, then one theorem per claim (with witnesses
and counterexamples where required). -/

theorem goContains_nil (s : GoStr) : goContains s [] = true := by
  cases s <;> simp [goContains, goHasPrefixChars]

theorem goHasPrefixChars_append (m t : GoStr) :
    goHasPrefixChars (m ++ t) m = true := by
  induction m with
  | nil => simp [goHasPrefixChars]
  | cons c m ih => simp [goHasPrefixChars, ih]

theorem goContains_append_left (a : GoStr) {s sub : GoStr}
    (h : goContains s sub = true) : goContains (a ++ s) sub = true := by
  induction a with
  | nil => simpa using h
  | cons c a ih => simp [goContains, ih]

theorem goContains_append_self (m t : GoStr) :
    goContains (m ++ t) m = true := by
  cases m with
  | nil => simpa using goContains_nil t
  | cons c m =>
    simp only [List.cons_append, goContains]
    have := goHasPrefixChars_append (c :: m) t
    simp only [List.cons_append] at this
    simp [this]

theorem goContains_middle (a m b : GoStr) :
    goContains (a ++ (m ++ b)) m = true :=
  goContains_append_left a (goContains_append_self m b)

theorem goHasPrefixChars_extend (b : GoStr) :
    ∀ {s sub : GoStr}, goHasPrefixChars s sub = true →
    goHasPrefixChars (s ++ b) sub = true := by
  intro s sub
  induction sub generalizing s with
  | nil => intro _; simp [goHasPrefixChars]
  | cons c sub ih =>
    intro h
    cases s with
    | nil => simp [goHasPrefixChars] at h
    | cons x s =>
      simp only [goHasPrefixChars, Bool.and_eq_true] at h
      simp only [List.cons_append, goHasPrefixChars, Bool.and_eq_true]
      exact ⟨h.1, ih h.2⟩

theorem goContains_append_right (b : GoStr) :
    ∀ {s sub : GoStr}, goContains s sub = true →
    goContains (s ++ b) sub = true := by
  intro s sub
  induction s with
  | nil =>
    intro h
    simp only [goContains, List.isEmpty_iff] at h
    subst h
    exact goContains_nil b
  | cons x s ih =>
    intro h
    simp only [goContains, Bool.or_eq_true] at h
    simp only [List.cons_append, goContains, Bool.or_eq_true]
    rcases h with h | h
    · exact Or.inl (by simpa using goHasPrefixChars_extend b h)
    · exact Or.inr (ih h)

theorem goContains_self (m : GoStr) : goContains m m = true := by
  simpa using goContains_append_self m []

theorem formatPublicationsList_contains_citations :
    ∀ (ps : List GoVal) (start i : Nat) (p : List (GoStr × GoVal)),
    ps[i]? = some (GoVal.obj p) →
    goContains (formatPublicationsList start ps) (citationsLine p) = true := by
  intro ps
  induction ps with
  | nil => intro start i p h; simp at h
  | cons pub rest ih =>
    intro start i p h
    cases i with
    | zero =>
      simp only [List.getElem?_cons_zero, Option.some.injEq] at h
      subst h
      simp only [formatPublicationsList, formatPublicationBody]
      apply goContains_append_right
      apply goContains_append_left
      apply goContains_append_right
      apply goContains_append_left
      exact goContains_self _
    | succ i =>
      simp only [List.getElem?_cons_succ] at h
      simp only [formatPublicationsList]
      apply goContains_append_left
      exact ih (start + 1) i p h

/-- C4: a criterion-detail fact bag whose publication entry carries
`citations = 89` — as `int`, `int64` or `float64` — formats that entry's
citation fragment as exactly `"\nCitations: 89"` (so no other
citation-count number appears for the entry), and the formatted
client-facts text contains the literal substring `"89"` as that count. -/
theorem formatClientFacts_citation_fidelity (d : CriteriaDetail)
    (ps : List GoVal) (i : Nat) (p : List (GoStr × GoVal))
    (hd : mlookup d (gs "publications") = some (.arr ps))
    (hp : ps[i]? = some (.obj p))
    (hc : mlookup p (gs "citations") = some (.numI 89) ∨
      mlookup p (gs "citations") = some (.numF 89) ∨
      mlookup p (gs "citations") = some (.numI64 89)) :
    citationsLine p = gs "\nCitations: 89" ∧
    goContains (formatClientFacts (gs "authorship") d)
      (gs "\nCitations: 89") = true := by
  have hline : citationsLine p = gs "\nCitations: 89" := by
    rcases hc with hc | hc | hc <;>
      · simp only [citationsLine, hc]
        decide
  have hff : formatClientFacts (gs "authorship") d =
      formatPublicationsList 0 ps := by
    unfold formatClientFacts
    rw [if_neg (by decide), if_neg (by decide), if_pos rfl, hd]
  refine ⟨hline, ?_⟩
  rw [hff, ← hline]
  exact formatPublicationsList_contains_citations ps 0 i p hp

theorem formatClientFacts_citation_fidelity_witness :
    (mlookup [(gs "publications",
        GoVal.arr [GoVal.obj [(gs "title", GoVal.str (gs "Paper")),
          (gs "citations", GoVal.numI 89)]])]
      (gs "publications") =
      some (.arr [GoVal.obj [(gs "title", GoVal.str (gs "Paper")),
        (gs "citations", GoVal.numI 89)]]) ∧
     mlookup [(gs "title", GoVal.str (gs "Paper")),
        (gs "citations", GoVal.numI 89)] (gs "citations") =
      some (.numI 89)) ∧
    citationsLine [(gs "title", GoVal.str (gs "Paper")),
      (gs "citations", GoVal.numI 89)] = gs "\nCitations: 89" ∧
    goContains
      (formatClientFacts (gs "authorship")
        [(gs "publications",
          GoVal.arr [GoVal.obj [(gs "title", GoVal.str (gs "Paper")),
            (gs "citations", GoVal.numI 89)]])])
      (gs "\nCitations: 89") = true :=
  ⟨⟨rfl, rfl⟩,
    formatClientFacts_citation_fidelity _ _ 0 _ rfl rfl (Or.inl rfl)⟩

/-- C5: a petition missing the client name, the field of expertise, a
non-empty selected-criteria list, or non-empty criteria details makes
`GenerateDraft` fail with the typed missing-data error, and no job
record is created (validation precedes persistence). -/
theorem generateDraft_missing_data (p : Petition) (createOk : Bool)
    (h : p.clientName = [] ∨ p.fieldOfExpertise = [] ∨
      p.selectedCriteria.length = 0 ∨ p.criteriaDetails.length = 0) :
    GenerateDraft (some p) createOk =
      (.error .missingRequiredData, false) := by
  unfold GenerateDraft
  rcases h with h | h | h | h
  · simp [h]
  · by_cases h1 : p.clientName = [] <;> simp [h1, h]
  · by_cases h1 : p.clientName = [] <;>
      by_cases h2 : p.fieldOfExpertise = [] <;> simp [h1, h2, h]
  · by_cases h1 : p.clientName = [] <;>
      by_cases h2 : p.fieldOfExpertise = [] <;>
      by_cases h3 : p.selectedCriteria.length = 0 <;> simp [h1, h2, h3, h]

theorem generateDraft_missing_data_witness :
    (Petition.clientName ⟨[], gs "AI", [gs "awards"], [], none⟩ = [] ∨
      Petition.fieldOfExpertise ⟨[], gs "AI", [gs "awards"], [], none⟩ = [] ∨
      (Petition.selectedCriteria
        ⟨[], gs "AI", [gs "awards"], [], none⟩).length = 0 ∨
      (Petition.criteriaDetails
        ⟨[], gs "AI", [gs "awards"], [], none⟩).length = 0) ∧
    GenerateDraft (some ⟨[], gs "AI", [gs "awards"], [], none⟩) true =
      (.error .missingRequiredData, false) :=
  ⟨Or.inl rfl,
    generateDraft_missing_data ⟨[], gs "AI", [gs "awards"], [], none⟩ true
      (Or.inl rfl)⟩

/-- C6: every successfully created job has a step list of length
(number of selected criteria) + 2: one step per criterion, named by
`getCriterionStepName`, in the petition's stored order, followed by the
two fixed trailing steps, all initially pending. -/
theorem created_job_steps_shape (p : Petition) (createOk : Bool)
    (job : CreatedJob)
    (h : GenerateDraft (some p) createOk = (.ok job, true)) :
    job.steps.length = p.selectedCriteria.length + 2 ∧
    job.steps.map GenerationStep.name =
      p.selectedCriteria.map getCriterionStepName ++
        [gs "Final Merits Determination", gs "Assembling Document"] ∧
    ∀ s ∈ job.steps, s.status = gs "pending" := by
  have hsteps : job.steps = initializeSteps p.selectedCriteria := by
    by_cases h1 : p.clientName = [] <;>
      by_cases h2 : p.fieldOfExpertise = [] <;>
      by_cases h3 : p.selectedCriteria.length = 0 <;>
      by_cases h4 : p.criteriaDetails.length = 0 <;>
      by_cases h5 : createOk = true <;>
      simp [GenerateDraft, h1, h2, h3, h4, h5] at h
    exact h ▸ rfl
  refine ⟨by simp [hsteps, initializeSteps],
    by simp [hsteps, initializeSteps], ?_⟩
  intro s hs
  rw [hsteps] at hs
  simp only [initializeSteps, List.mem_append, List.mem_map,
    List.mem_cons, List.not_mem_nil, or_false] at hs
  rcases hs with ⟨c, _, rfl⟩ | rfl | rfl
  · rfl
  · rfl
  · rfl

set_option maxRecDepth 100000 in
theorem created_job_steps_shape_witness :
    GenerateDraft
      (some ⟨gs "Dr. Example", gs "Artificial Intelligence",
        [gs "awards", gs "judging"], [(gs "awards", [])], none⟩) true =
      (.ok ⟨.pending, initializeSteps [gs "awards", gs "judging"]⟩, true) ∧
    ((⟨.pending, initializeSteps [gs "awards", gs "judging"]⟩ :
        CreatedJob).steps.length =
      [gs "awards", gs "judging"].length + 2 ∧
    (⟨.pending, initializeSteps [gs "awards", gs "judging"]⟩ :
        CreatedJob).steps.map GenerationStep.name =
      [gs "awards", gs "judging"].map getCriterionStepName ++
        [gs "Final Merits Determination", gs "Assembling Document"] ∧
    ∀ s ∈ (⟨.pending, initializeSteps [gs "awards", gs "judging"]⟩ :
        CreatedJob).steps, s.status = gs "pending") :=
  ⟨rfl,
    created_job_steps_shape
      ⟨gs "Dr. Example", gs "Artificial Intelligence",
        [gs "awards", gs "judging"], [(gs "awards", [])], none⟩ true
      ⟨.pending, initializeSteps [gs "awards", gs "judging"]⟩ rfl⟩

/-- C7: every chunk returned by `SearchByCriterion` matches the requested
source type and criterion tag (NULL tag for the empty criterion);
returned appeal_decision chunks are winning arguments and returned
precedent_case chunks are holdings (regulation chunks carry no such extra
flag filter); at most `limit` chunks are returned, in ascending order of
the cosine-distance key. -/
theorem searchByCriterion_contract (dist : List ℚ → List ℚ → ℚ)
    (table : List LegalChunk) (embedding : List ℚ)
    (criterion sourceType : GoStr) (limit : Nat)
    (result : List LegalChunk)
    (h : SearchByCriterion dist table embedding criterion sourceType limit =
      .ok result) :
    (∀ c ∈ result,
      c.sourceType = sourceType ∧
      (criterion = [] → c.criterionTag = none) ∧
      (criterion ≠ [] → c.criterionTag = some criterion) ∧
      (c.sourceType = gs "appeal_decision" → c.isWinningArgument = true) ∧
      (c.sourceType = gs "precedent_case" → c.isHolding = true)) ∧
    result.length ≤ limit ∧
    result.Pairwise
      (fun a b => dist embedding a.embedding ≤ dist embedding b.embedding) := by
  unfold SearchByCriterion at h
  split at h
  · exact absurd h (by simp)
  · have hr : result = (List.insertionSort
        (fun a b => dist embedding a.embedding ≤ dist embedding b.embedding)
        (table.filter (rowMatches criterion sourceType))).take limit :=
      (Except.ok.inj h).symm
    subst hr
    refine ⟨?_, ?_, ?_⟩
    · intro c hc
      have hmem : c ∈ List.insertionSort
          (fun a b => dist embedding a.embedding ≤ dist embedding b.embedding)
          (table.filter (rowMatches criterion sourceType)) :=
        (List.take_sublist _ _).subset hc
      have hmem2 : c ∈ table.filter (rowMatches criterion sourceType) :=
        (List.perm_insertionSort _ _).subset hmem
      have hrm : rowMatches criterion sourceType c = true :=
        (List.mem_filter.mp hmem2).2
      by_cases hcrit : criterion = [] <;>
        simp only [rowMatches, hcrit, if_true, if_false, ite_true, ite_false,
          Bool.and_eq_true, Bool.or_eq_true, decide_eq_true_eq] at hrm
      · refine ⟨hrm.1.1.1.2, fun _ => hrm.1.1.1.1,
          fun hne => absurd hcrit hne, ?_, ?_⟩
        · intro heq
          rcases hrm.1.2 with hne | hw
          · exact absurd heq hne
          · exact hw
        · intro heq
          rcases hrm.2 with hne | hh
          · exact absurd heq hne
          · exact hh
      · refine ⟨hrm.1.1.1.2, fun he => absurd he hcrit,
          fun _ => hrm.1.1.1.1, ?_, ?_⟩
        · intro heq
          rcases hrm.1.2 with hne | hw
          · exact absurd heq hne
          · exact hw
        · intro heq
          rcases hrm.2 with hne | hh
          · exact absurd heq hne
          · exact hh
    · simp
    · haveI : IsTotal LegalChunk
          (fun a b => dist embedding a.embedding ≤ dist embedding b.embedding) :=
        ⟨fun a b => le_total _ _⟩
      haveI : IsTrans LegalChunk
          (fun a b => dist embedding a.embedding ≤ dist embedding b.embedding) :=
        ⟨fun a b c hab hbc => le_trans hab hbc⟩
      exact List.Pairwise.sublist (List.take_sublist _ _)
        (List.sorted_insertionSort _ _)

set_option maxRecDepth 100000 in
theorem searchByCriterion_contract_witness :
    SearchByCriterion (fun _ _ => (0 : ℚ))
      [⟨gs "regulation text", gs "regulation", gs "uscis_regulations.txt",
        none, none, some (gs "awards"), none, none, false, false,
        gs "O-1", List.replicate 768 (0 : ℚ)⟩]
      (List.replicate 768 (0 : ℚ)) (gs "awards") (gs "regulation") 3 =
      .ok [⟨gs "regulation text", gs "regulation", gs "uscis_regulations.txt",
        none, none, some (gs "awards"), none, none, false, false,
        gs "O-1", List.replicate 768 (0 : ℚ)⟩] ∧
    ((∀ c ∈ [(⟨gs "regulation text", gs "regulation",
          gs "uscis_regulations.txt", none, none, some (gs "awards"), none,
          none, false, false, gs "O-1",
          List.replicate 768 (0 : ℚ)⟩ : LegalChunk)],
        c.sourceType = gs "regulation" ∧
        (gs "awards" = [] → c.criterionTag = none) ∧
        (gs "awards" ≠ [] → c.criterionTag = some (gs "awards")) ∧
        (c.sourceType = gs "appeal_decision" → c.isWinningArgument = true) ∧
        (c.sourceType = gs "precedent_case" → c.isHolding = true)) ∧
      [(⟨gs "regulation text", gs "regulation", gs "uscis_regulations.txt",
          none, none, some (gs "awards"), none, none, false, false,
          gs "O-1", List.replicate 768 (0 : ℚ)⟩ : LegalChunk)].length ≤ 3 ∧
      [(⟨gs "regulation text", gs "regulation", gs "uscis_regulations.txt",
          none, none, some (gs "awards"), none, none, false, false,
          gs "O-1", List.replicate 768 (0 : ℚ)⟩ : LegalChunk)].Pairwise
        (fun a b => (fun _ _ => (0 : ℚ)) (List.replicate 768 (0 : ℚ))
            a.embedding ≤
          (fun _ _ => (0 : ℚ)) (List.replicate 768 (0 : ℚ)) b.embedding)) := by
  have hs : SearchByCriterion (fun _ _ => (0 : ℚ))
      [⟨gs "regulation text", gs "regulation", gs "uscis_regulations.txt",
        none, none, some (gs "awards"), none, none, false, false,
        gs "O-1", List.replicate 768 (0 : ℚ)⟩]
      (List.replicate 768 (0 : ℚ)) (gs "awards") (gs "regulation") 3 =
      .ok [⟨gs "regulation text", gs "regulation", gs "uscis_regulations.txt",
        none, none, some (gs "awards"), none, none, false, false,
        gs "O-1", List.replicate 768 (0 : ℚ)⟩] := rfl
  exact ⟨hs, searchByCriterion_contract _ _ _ _ _ _ _ hs⟩

/-- C8 counterexample: three consecutive transient (HTTP 500) failures
make `generateQueryEmbedding` perform exactly 3 attempts and fail — but
with the formatted after-attempts API error, not the typed
`ErrEmbeddingFailed` sentinel the claim names (that sentinel is
unreachable: every last-attempt branch returns its own error). -/
theorem embed_retry_typed_error_counterexample :
    (generateQueryEmbedding (fun _ => .resp 500 .decodeFail)).attempts = 3 ∧
    (generateQueryEmbedding (fun _ => .resp 500 .decodeFail)).sleeps =
      [1, 2] ∧
    (generateQueryEmbedding (fun _ => .resp 500 .decodeFail)).result =
      .error (.apiErrorAfter 3 500) ∧
    (generateQueryEmbedding (fun _ => .resp 500 .decodeFail)).result ≠
      .error .embeddingFailed := by
  refine ⟨rfl, rfl, rfl, ?_⟩
  rw [show (generateQueryEmbedding (fun _ => .resp 500 .decodeFail)).result =
    .error (.apiErrorAfter 3 500) from rfl]
  exact fun hc => absurd (Except.error.inj hc) (by decide)

/-- C8 (amended): on three transient (transport or 5xx) failures the
call performs exactly 3 attempts with doubling backoff (sleeping 1s then
2s) and fails with the formatted transport/API error naming the attempt
count — never the typed `ErrEmbeddingFailed` sentinel, which is
unreachable; an HTTP 400 on the first attempt short-circuits with the
plain API error after exactly 1 attempt and no sleeps. -/
theorem embed_retry_ceiling (f : Nat → EmbedOutcome) :
    ((∀ i, i < 3 → f i = .transportErr ∨
        ∃ status body, f i = .resp status body ∧ ¬status = 200 ∧
          ¬(status = 400 ∨ status = 401) ∧ 500 ≤ status) →
      (generateQueryEmbedding f).attempts = 3 ∧
      (generateQueryEmbedding f).sleeps = [1, 2] ∧
      ((generateQueryEmbedding f).result = .error (.sendFailedAfter 3) ∨
        ∃ status, 500 ≤ status ∧
          (generateQueryEmbedding f).result =
            .error (.apiErrorAfter 3 status)) ∧
      (generateQueryEmbedding f).result ≠ .error .embeddingFailed) ∧
    (∀ body, f 0 = .resp 400 body →
      generateQueryEmbedding f = ⟨.error (.apiError 400), 1, []⟩) := by
  constructor
  · intro h
    rcases h 0 (by omega) with h0 | ⟨s0, b0, h0, hn0, ho0, hg0⟩ <;>
      rcases h 1 (by omega) with h1 | ⟨s1, b1, h1, hn1, ho1, hg1⟩ <;>
      rcases h 2 (by omega) with h2 | ⟨s2, b2, h2, hn2, ho2, hg2⟩ <;>
      simp_all [generateQueryEmbedding, generateQueryEmbeddingAux,
        maxRetries, initialBackoff]
  · intro body h0
    simp [generateQueryEmbedding, generateQueryEmbeddingAux, maxRetries,
      initialBackoff, h0]

theorem embed_retry_ceiling_witness :
    ((generateQueryEmbedding (fun _ => .transportErr)).attempts = 3 ∧
      (generateQueryEmbedding (fun _ => .transportErr)).sleeps = [1, 2] ∧
      ((generateQueryEmbedding (fun _ => .transportErr)).result =
          .error (.sendFailedAfter 3) ∨
        ∃ status, 500 ≤ status ∧
          (generateQueryEmbedding (fun _ => .transportErr)).result =
            .error (.apiErrorAfter 3 status)) ∧
      (generateQueryEmbedding (fun _ => .transportErr)).result ≠
        .error .embeddingFailed) ∧
    generateQueryEmbedding (fun _ => .resp 400 .decodeFail) =
      ⟨.error (.apiError 400), 1, []⟩ :=
  ⟨(embed_retry_ceiling (fun _ => .transportErr)).1
      (fun _ _ => Or.inl rfl),
    (embed_retry_ceiling (fun _ => .resp 400 .decodeFail)).2
      .decodeFail rfl⟩

theorem updateStep_status (job : JobState) (stepName status : GoStr) :
    (updateStep job stepName status).status = job.status := rfl

theorem processCriteriaLoop_all_ok (pet : Petition)
    (retrieve : GoStr → CriteriaDetail → Except GoStr RetrievedContext)
    (gen1 : GoStr → CriteriaDetail → RetrievedContext → Except GoStr GoStr) :
    ∀ (cs : List GoStr) (job : JobState) (sections : List DraftSection),
    (∀ c ∈ cs, (clookup pet.criteriaDetails c).isSome) →
    (∀ c ∈ cs, ∀ d ctx, ∃ s, gen1 c d ctx = .ok s) →
    ∃ job' sections',
      processCriteriaLoop pet retrieve gen1 cs job sections =
        (job', some sections') ∧ job'.status = job.status := by
  intro cs
  induction cs with
  | nil =>
    intro job sections _ _
    exact ⟨job, sections, rfl, rfl⟩
  | cons c rest ih =>
    intro job sections hdet hgen
    obtain ⟨d, hd⟩ := Option.isSome_iff_exists.mp
      (hdet c (List.mem_cons_self c rest))
    obtain ⟨s, hs⟩ := hgen c (List.mem_cons_self c rest) d
      (match retrieve c d with
        | .error _ => RetrievedContext.empty
        | .ok ctx => ctx)
    simp only [processCriteriaLoop, hd, hs]
    obtain ⟨job', sections', hloop, hstat⟩ :=
      ih (updateStep (updateStep job (getCriterionStepName c)
          (gs "in_progress")) (getCriterionStepName c) (gs "completed"))
        (sections ++ [⟨getCriterionTitle c, s,
          extractCitations
            (match retrieve c d with
              | .error _ => RetrievedContext.empty
              | .ok ctx => ctx) c⟩])
        (fun x hx => hdet x (List.mem_cons_of_mem c hx))
        (fun x hx => hgen x (List.mem_cons_of_mem c hx))
    exact ⟨job', sections', hloop, hstat⟩

theorem processCriteriaLoop_gen_failure (pet : Petition)
    (retrieve : GoStr → CriteriaDetail → Except GoStr RetrievedContext)
    (gen1 : GoStr → CriteriaDetail → RetrievedContext → Except GoStr GoStr)
    (k : GoStr) (e : GoStr) :
    ∀ (pre post : List GoStr) (job : JobState) (sections : List DraftSection),
    (∀ c ∈ pre, (clookup pet.criteriaDetails c).isSome) →
    (∀ c ∈ pre, ∀ d ctx, ∃ s, gen1 c d ctx = .ok s) →
    (clookup pet.criteriaDetails k).isSome →
    (∀ d ctx, gen1 k d ctx = .error e) →
    ∃ job',
      processCriteriaLoop pet retrieve gen1 (pre ++ k :: post) job sections =
        (job', none) ∧
      job'.status = .failed ∧
      job'.errorMessage =
        some (gs "failed to generate section for " ++ k ++ gs ": " ++ e) := by
  intro pre
  induction pre with
  | nil =>
    intro post job sections _ _ hk hke
    obtain ⟨d, hd⟩ := Option.isSome_iff_exists.mp hk
    simp only [List.nil_append, processCriteriaLoop, hd,
      hke d (match retrieve k d with
        | .error _ => RetrievedContext.empty
        | .ok ctx => ctx)]
    exact ⟨_, rfl, rfl, rfl⟩
  | cons c rest ih =>
    intro post job sections hdet hgen hk hke
    obtain ⟨d, hd⟩ := Option.isSome_iff_exists.mp
      (hdet c (List.mem_cons_self c rest))
    obtain ⟨s, hs⟩ := hgen c (List.mem_cons_self c rest) d
      (match retrieve c d with
        | .error _ => RetrievedContext.empty
        | .ok ctx => ctx)
    simp only [List.cons_append, processCriteriaLoop, hd, hs]
    exact ih post _ _
      (fun x hx => hdet x (List.mem_cons_of_mem c hx))
      (fun x hx => hgen x (List.mem_cons_of_mem c hx)) hk hke

/-- C2: if section generation fails for a criterion during `ProcessDraft`
(all earlier criteria having succeeded), the job ends `failed` with an
error message that names the failing criterion, and the petition's
generated content is left exactly as it was — no partial document is
written on a failed run. -/
theorem processDraft_generation_failure (pet : Petition) (job0 : JobState)
    (retrieve : GoStr → CriteriaDetail → Except GoStr RetrievedContext)
    (gen1 : GoStr → CriteriaDetail → RetrievedContext → Except GoStr GoStr)
    (gen2 : List DraftSection → Except GoStr GoStr)
    (pre post : List GoStr) (k : GoStr) (e : GoStr)
    (hsel : pet.selectedCriteria = pre ++ k :: post)
    (hpredet : ∀ c ∈ pre, (clookup pet.criteriaDetails c).isSome)
    (hpregen : ∀ c ∈ pre, ∀ d ctx, ∃ s, gen1 c d ctx = .ok s)
    (hk : (clookup pet.criteriaDetails k).isSome)
    (hke : ∀ d ctx, gen1 k d ctx = .error e) :
    (ProcessDraft pet job0 retrieve gen1 gen2).job.status = .failed ∧
    (ProcessDraft pet job0 retrieve gen1 gen2).job.errorMessage =
      some (gs "failed to generate section for " ++ k ++ gs ": " ++ e) ∧
    goContains (gs "failed to generate section for " ++ k ++ gs ": " ++ e)
      k = true ∧
    (ProcessDraft pet job0 retrieve gen1 gen2).petitionContent =
      pet.generatedContent := by
  obtain ⟨job', hloop, hstat, hmsg⟩ :=
    processCriteriaLoop_gen_failure pet retrieve gen1 k e pre post
      { job0 with status := JobStatus.inProgress } []
      hpredet hpregen hk hke
  have hrun : ProcessDraft pet job0 retrieve gen1 gen2 =
      ⟨job', pet.generatedContent⟩ := by
    simp only [ProcessDraft, hsel, hloop]
  refine ⟨by rw [hrun]; exact hstat, by rw [hrun]; exact hmsg, ?_,
    by rw [hrun]⟩
  apply goContains_append_right
  apply goContains_append_right
  exact goContains_append_left _ (goContains_self k)

theorem processDraft_generation_failure_witness :
    (ProcessDraft
        ⟨gs "Jane Doe", gs "AI", [gs "awards", gs "judging"],
          [(gs "awards", [(gs "description", GoVal.str (gs "facts"))]),
           (gs "judging", [(gs "venue", GoVal.str (gs "NeurIPS"))])], none⟩
        ⟨.pending, initializeSteps [gs "awards", gs "judging"], none, none⟩
        (fun _ _ => .ok RetrievedContext.empty)
        (fun c _ _ => if c = gs "judging" then .error (gs "boom")
          else .ok (gs "Section content."))
        (fun _ => .ok (gs "Merits content."))).job.status = .failed ∧
    (ProcessDraft
        ⟨gs "Jane Doe", gs "AI", [gs "awards", gs "judging"],
          [(gs "awards", [(gs "description", GoVal.str (gs "facts"))]),
           (gs "judging", [(gs "venue", GoVal.str (gs "NeurIPS"))])], none⟩
        ⟨.pending, initializeSteps [gs "awards", gs "judging"], none, none⟩
        (fun _ _ => .ok RetrievedContext.empty)
        (fun c _ _ => if c = gs "judging" then .error (gs "boom")
          else .ok (gs "Section content."))
        (fun _ => .ok (gs "Merits content."))).job.errorMessage =
      some (gs "failed to generate section for " ++ gs "judging" ++
        gs ": " ++ gs "boom") ∧
    goContains (gs "failed to generate section for " ++ gs "judging" ++
      gs ": " ++ gs "boom") (gs "judging") = true ∧
    (ProcessDraft
        ⟨gs "Jane Doe", gs "AI", [gs "awards", gs "judging"],
          [(gs "awards", [(gs "description", GoVal.str (gs "facts"))]),
           (gs "judging", [(gs "venue", GoVal.str (gs "NeurIPS"))])], none⟩
        ⟨.pending, initializeSteps [gs "awards", gs "judging"], none, none⟩
        (fun _ _ => .ok RetrievedContext.empty)
        (fun c _ _ => if c = gs "judging" then .error (gs "boom")
          else .ok (gs "Section content."))
        (fun _ => .ok (gs "Merits content."))).petitionContent = none :=
  processDraft_generation_failure _ _ _ _ _
    [gs "awards"] [] (gs "judging") (gs "boom") rfl
    (fun c hc => by
      rcases List.mem_singleton.mp hc with rfl
      rfl)
    (fun c hc d ctx => by
      rcases List.mem_singleton.mp hc with rfl
      exact ⟨gs "Section content.", rfl⟩)
    (by rfl)
    (fun d ctx => rfl)

/-- C1 counterexample: a `Process` run in which legal-context retrieval
fails for the (single) criterion but generation succeeds ends with the
job `completed` and the assembled document written to the petition — the
run is not aborted and content is persisted, contradicting the claim
that a retrieval failure transitions the job to `failed` with no content
written. -/
theorem processDraft_retrieval_failure_counterexample :
    (ProcessDraft
        ⟨gs "Jane Doe", gs "AI", [gs "awards"],
          [(gs "awards", [(gs "description", GoVal.str (gs "facts"))])],
          none⟩
        ⟨.pending, initializeSteps [gs "awards"], none, none⟩
        (fun _ _ => .error (gs "failed to generate embedding"))
        (fun _ _ _ => .ok (gs "Section content."))
        (fun _ => .ok (gs "Merits content."))).job.status = .completed ∧
    (ProcessDraft
        ⟨gs "Jane Doe", gs "AI", [gs "awards"],
          [(gs "awards", [(gs "description", GoVal.str (gs "facts"))])],
          none⟩
        ⟨.pending, initializeSteps [gs "awards"], none, none⟩
        (fun _ _ => .error (gs "failed to generate embedding"))
        (fun _ _ _ => .ok (gs "Section content."))
        (fun _ => .ok (gs "Merits content."))).petitionContent.isSome =
      true :=
  ⟨rfl, rfl⟩

/-- C1 (amended): a legal-context retrieval failure does not abort a
`Process` run — the run substitutes the empty context and continues; for
any retrieval behaviour whatsoever (including failing on every
criterion), if every criterion has details and section and merits
generation succeed, the job completes and the assembled document is
written to the petition.  (Generation failures do abort with a
descriptive message and no content written — that is the separate
section-generation property.) -/
theorem processDraft_retrieval_failure_not_fatal (pet : Petition)
    (job0 : JobState)
    (retrieve : GoStr → CriteriaDetail → Except GoStr RetrievedContext)
    (gen1 : GoStr → CriteriaDetail → RetrievedContext → Except GoStr GoStr)
    (gen2 : List DraftSection → Except GoStr GoStr)
    (hdet : ∀ c ∈ pet.selectedCriteria,
      (clookup pet.criteriaDetails c).isSome)
    (hgen1 : ∀ c ∈ pet.selectedCriteria, ∀ d ctx,
      ∃ s, gen1 c d ctx = .ok s)
    (hgen2 : ∀ secs, ∃ m, gen2 secs = .ok m) :
    (ProcessDraft pet job0 retrieve gen1 gen2).job.status = .completed ∧
    ∃ doc,
      (ProcessDraft pet job0 retrieve gen1 gen2).petitionContent =
        some doc := by
  obtain ⟨job', sections', hloop, -⟩ :=
    processCriteriaLoop_all_ok pet retrieve gen1 pet.selectedCriteria
      { job0 with status := JobStatus.inProgress } [] hdet hgen1
  obtain ⟨m, hm⟩ := hgen2 sections'
  have hrun : ProcessDraft pet job0 retrieve gen1 gen2 =
      ⟨{ updateStep (updateStep (updateStep (updateStep job'
            (gs "Final Merits Determination") (gs "in_progress"))
            (gs "Final Merits Determination") (gs "completed"))
            (gs "Assembling Document") (gs "in_progress"))
            (gs "Assembling Document") (gs "completed") with
          status := JobStatus.completed },
        some (assembleDocument pet (sections' ++
          [⟨gs "Final Merits Determination", m, []⟩]))⟩ := by
    simp only [ProcessDraft, hloop, hm]
  rw [hrun]
  exact ⟨rfl, _, rfl⟩

theorem processDraft_retrieval_failure_not_fatal_witness :
    (ProcessDraft
        ⟨gs "John Roe", gs "Physics", [gs "awards"],
          [(gs "awards", [(gs "description", GoVal.str (gs "facts"))])],
          none⟩
        ⟨.pending, initializeSteps [gs "awards"], none, none⟩
        (fun _ _ => .error (gs "failed to generate embedding"))
        (fun _ _ _ => .ok (gs "Section content."))
        (fun _ => .ok (gs "Merits content."))).job.status = .completed ∧
    ∃ doc,
      (ProcessDraft
          ⟨gs "John Roe", gs "Physics", [gs "awards"],
            [(gs "awards", [(gs "description", GoVal.str (gs "facts"))])],
            none⟩
          ⟨.pending, initializeSteps [gs "awards"], none, none⟩
          (fun _ _ => .error (gs "failed to generate embedding"))
          (fun _ _ _ => .ok (gs "Section content."))
          (fun _ => .ok (gs "Merits content."))).petitionContent =
        some doc :=
  processDraft_retrieval_failure_not_fatal _ _ _ _ _
    (fun c hc => by
      rcases List.mem_singleton.mp hc with rfl
      rfl)
    (fun c hc d ctx => ⟨gs "Section content.", rfl⟩)
    (fun secs => ⟨gs "Merits content.", rfl⟩)

/-- C3 counterexample: a completion attempt that observes a
content-safety block (a "terminal" error per the claim) is not surfaced
to the caller — the loop retries, and when the second attempt succeeds
the caller sees success after 2 attempts.  So terminal external-service
errors are retried exactly like transient ones. -/
theorem completion_terminal_error_retried_counterexample :
    callGenerationAPI
        ((fun i => if i = 0 then
          GenHttpOutcome.ok ⟨[], gs "SAFETY", [], 0⟩
        else
          GenHttpOutcome.ok ⟨[⟨[gs "generated text"], gs "STOP"⟩],
            [], [], 0⟩) 0) =
      .error (.blocked (gs "SAFETY")) ∧
    genRetryLoop (fun attempt => callGenerationAPI
        ((fun i => if i = 0 then
          GenHttpOutcome.ok ⟨[], gs "SAFETY", [], 0⟩
        else
          GenHttpOutcome.ok ⟨[⟨[gs "generated text"], gs "STOP"⟩],
            [], [], 0⟩) attempt)) =
      .success (gs "generated text") 2 ∧
    generateProng1Section
        (fun i => if i = 0 then
          GenHttpOutcome.ok ⟨[], gs "SAFETY", [], 0⟩
        else
          GenHttpOutcome.ok ⟨[⟨[gs "generated text"], gs "STOP"⟩],
            [], [], 0⟩) =
      .ok (gs "generated text") :=
  ⟨rfl, rfl, rfl⟩

/-- C3 (amended): within one `callGenerationAPI` call nothing is retried
— auth/bad-request HTTP responses, content-safety blocks, API error
payloads, empty-candidate responses and transport failures all return an
error from that single call; but the section-generation loop around it
retries every such error (and empty-but-200 content) alike, up to 3
attempts, surfacing an error only when the third attempt also fails. -/
theorem completion_retry_policy (outcomes : Nat → GenHttpOutcome)
    (e e0 e1 e2 : GenErr) (s : GoStr) :
    ((callGenerationAPI (outcomes 0) = .error e ∨
        callGenerationAPI (outcomes 0) = .ok []) →
      callGenerationAPI (outcomes 1) = .ok s → s ≠ [] →
      generateProng1Section outcomes = .ok s) ∧
    (callGenerationAPI (outcomes 0) = .error e0 →
      callGenerationAPI (outcomes 1) = .error e1 →
      callGenerationAPI (outcomes 2) = .error e2 →
      generateProng1Section outcomes = .error (.afterAttempts e2) ∧
      genRetryLoop (fun a => callGenerationAPI (outcomes a)) =
        .failedErr e2 3) ∧
    (callGenerationAPI (outcomes 0) = .ok s → s ≠ [] →
      generateProng1Section outcomes = .ok s) := by
  refine ⟨?_, ?_, ?_⟩
  · rintro (h0 | h0) h1 hs <;>
      simp [generateProng1Section, genRetryLoop, genRetryAux, maxRetries,
        h0, h1, hs]
  · intro h0 h1 h2
    constructor <;>
      simp [generateProng1Section, genRetryLoop, genRetryAux, maxRetries,
        h0, h1, h2]
  · intro h0 hs
    simp [generateProng1Section, genRetryLoop, genRetryAux, maxRetries,
      h0, hs]

theorem completion_retry_policy_witness :
    generateProng1Section
        (fun i => if i = 0 then GenHttpOutcome.transportErr
        else GenHttpOutcome.ok ⟨[⟨[gs "ok text"], gs "STOP"⟩], [], [], 0⟩) =
      .ok (gs "ok text") ∧
    (generateProng1Section (fun _ => GenHttpOutcome.transportErr) =
        .error (.afterAttempts .transportErr) ∧
      genRetryLoop (fun a => callGenerationAPI
          ((fun _ => GenHttpOutcome.transportErr) a)) =
        .failedErr .transportErr 3) ∧
    generateProng1Section
        (fun _ => GenHttpOutcome.ok
          ⟨[⟨[gs "first try"], gs "STOP"⟩], [], [], 0⟩) =
      .ok (gs "first try") :=
  ⟨(completion_retry_policy _ .transportErr .transportErr .transportErr
      .transportErr (gs "ok text")).1 (Or.inl rfl) rfl (by decide),
    (completion_retry_policy _ .transportErr .transportErr .transportErr
      .transportErr (gs "ok text")).2.1 rfl rfl rfl,
    (completion_retry_policy _ .transportErr .transportErr .transportErr
      .transportErr (gs "first try")).2.2 rfl (by decide)⟩

/-- C10: when query-embedding generation fails during the merits pass,
`generateProng2` does not fail — it substitutes a 768-dimensional
all-zero query vector and the whole run (both limit-5 similarity
searches over the regulation and appeal_decision partitions, the
Kazarian/Chawathe filtering, prompt construction and the completion
loop) proceeds exactly as it would with that zero vector. -/
theorem prong2_zero_vector_on_embed_failure (sections : List DraftSection)
    (petition : Petition) (e : EmbedErr)
    (dist : List ℚ → List ℚ → ℚ) (table : List LegalChunk)
    (outcomes : Nat → GoStr → GenHttpOutcome) :
    generateProng2 sections petition (.error e) dist table outcomes =
      generateProng2 sections petition
        (.ok (List.replicate 768 (0 : ℚ))) dist table outcomes ∧
    (generateProng2 sections petition (.error e) dist table
        outcomes).usedEmbedding = List.replicate 768 (0 : ℚ) :=
  ⟨rfl, rfl⟩

theorem mem_takeWhile_pred (p : Char → Bool) :
    ∀ (l : GoStr) (x : Char), x ∈ l.takeWhile p → p x = true := by
  intro l
  induction l with
  | nil => simp
  | cons c rest ih =>
    intro x hx
    by_cases hc : p c = true
    · rw [List.takeWhile_cons, if_pos hc] at hx
      rcases List.mem_cons.mp hx with rfl | hx
      · exact hc
      · exact ih x hx
    · rw [List.takeWhile_cons, if_neg hc] at hx
      exact absurd hx (List.not_mem_nil x)

theorem takeWhile_all_true (p : Char → Bool) :
    ∀ (l : GoStr), (∀ c ∈ l, p c = true) → l.takeWhile p = l := by
  intro l
  induction l with
  | nil => simp
  | cons c rest ih =>
    intro h
    rw [List.takeWhile_cons, if_pos (h c (List.mem_cons_self c rest))]
    rw [ih (fun x hx => h x (List.mem_cons_of_mem c hx))]

theorem dropWhile_all_true (p : Char → Bool) :
    ∀ (l : GoStr), (∀ c ∈ l, p c = true) → l.dropWhile p = [] := by
  intro l
  induction l with
  | nil => simp
  | cons c rest ih =>
    intro h
    rw [List.dropWhile_cons_of_pos (h c (List.mem_cons_self c rest))]
    exact ih (fun x hx => h x (List.mem_cons_of_mem c hx))

theorem takeWhile_append_stop (p : Char → Bool) (x : Char) :
    ∀ (w t : GoStr), (∀ c ∈ w, p c = true) → p x = false →
    (w ++ x :: t).takeWhile p = w := by
  intro w
  induction w with
  | nil =>
    intro t _ hx
    rw [List.nil_append, List.takeWhile_cons, if_neg (by simp [hx])]
  | cons c rest ih =>
    intro t h hx
    rw [List.cons_append, List.takeWhile_cons,
      if_pos (h c (List.mem_cons_self c rest))]
    rw [ih t (fun y hy => h y (List.mem_cons_of_mem c hy)) hx]

theorem dropWhile_append_stop (p : Char → Bool) (x : Char) :
    ∀ (w t : GoStr), (∀ c ∈ w, p c = true) → p x = false →
    (w ++ x :: t).dropWhile p = x :: t := by
  intro w
  induction w with
  | nil =>
    intro t _ hx
    rw [List.nil_append]
    exact List.dropWhile_cons_of_neg (by simp [hx])
  | cons c rest ih =>
    intro t h hx
    rw [List.cons_append,
      List.dropWhile_cons_of_pos (h c (List.mem_cons_self c rest))]
    exact ih t (fun y hy => h y (List.mem_cons_of_mem c hy)) hx

theorem dropWhile_length_le (p : Char → Bool) :
    ∀ (l : GoStr), (l.dropWhile p).length ≤ l.length := by
  intro l
  induction l with
  | nil => simp
  | cons c rest ih =>
    by_cases hc : p c = true
    · rw [List.dropWhile_cons_of_pos hc]
      exact Nat.le_succ_of_le ih
    · rw [List.dropWhile_cons_of_neg (by simp [hc])]

theorem goFieldsAux_words :
    ∀ (fuel : Nat) (s w : GoStr), w ∈ goFieldsAux fuel s →
    w ≠ [] ∧ ∀ c ∈ w, isGoSpace c = false := by
  intro fuel
  induction fuel with
  | zero => intro s w hw; simp [goFieldsAux] at hw
  | succ fuel ih =>
    intro s w hw
    cases s with
    | nil => simp [goFieldsAux] at hw
    | cons c rest =>
      by_cases hc : isGoSpace c = true
      · rw [goFieldsAux, if_pos hc] at hw
        exact ih rest w hw
      · rw [goFieldsAux, if_neg hc] at hw
        rcases List.mem_cons.mp hw with rfl | hw
        · refine ⟨by simp, ?_⟩
          intro x hx
          rcases List.mem_cons.mp hx with rfl | hx
          · exact Bool.not_eq_true _ ▸ (by simpa using hc)
          · have := mem_takeWhile_pred _ _ _ hx
            simpa using this
        · exact ih _ w hw

theorem goFieldsAux_fuel_irrel :
    ∀ (fuel : Nat) (s : GoStr) (g : Nat), s.length ≤ fuel →
    s.length ≤ g → goFieldsAux fuel s = goFieldsAux g s := by
  intro fuel
  induction fuel with
  | zero =>
    intro s g hf _
    have : s = [] := List.length_eq_zero.mp (Nat.le_zero.mp hf)
    subst this
    cases g <;> simp [goFieldsAux]
  | succ fuel ih =>
    intro s g hf hg
    cases s with
    | nil => cases g <;> simp [goFieldsAux]
    | cons c rest =>
      cases g with
      | zero => simp at hg
      | succ g =>
        simp only [List.length_cons, Nat.succ_le_succ_iff] at hf hg
        by_cases hc : isGoSpace c = true
        · rw [goFieldsAux, if_pos hc, goFieldsAux, if_pos hc]
          exact ih rest g hf hg
        · rw [goFieldsAux, if_neg hc, goFieldsAux, if_neg hc]
          have hlen : (rest.dropWhile (fun x => !isGoSpace x)).length ≤
              rest.length := dropWhile_length_le _ rest
          rw [ih (rest.dropWhile (fun x => !isGoSpace x)) g
            (Nat.le_trans hlen hf) (Nat.le_trans hlen hg)]

theorem goFieldsAux_peel (w t : GoStr) (f : Nat) (hw : w ≠ [])
    (hsp : ∀ c ∈ w, isGoSpace c = false) :
    goFieldsAux (f + 2) (w ++ ' ' :: t) = w :: goFieldsAux f t := by
  cases w with
  | nil => exact absurd rfl hw
  | cons c rest =>
    have hc : ¬isGoSpace c = true := by
      simp [hsp c (List.mem_cons_self c rest)]
    have hrest : ∀ x ∈ rest, (fun y => !isGoSpace y) x = true := by
      intro x hx
      simp [hsp x (List.mem_cons_of_mem c hx)]
    have hspace : (fun y => !isGoSpace y) ' ' = false := by
      simp [isGoSpace]
    rw [List.cons_append]
    rw [show f + 2 = (f + 1) + 1 from rfl]
    rw [goFieldsAux, if_neg hc]
    rw [takeWhile_append_stop _ _ rest t hrest hspace]
    rw [dropWhile_append_stop _ _ rest t hrest hspace]
    rw [goFieldsAux, if_pos (by simp [isGoSpace])]

theorem goFields_joinSpace :
    ∀ (ws : List GoStr),
    (∀ w ∈ ws, w ≠ [] ∧ ∀ c ∈ w, isGoSpace c = false) →
    goFields (joinSpace ws) = ws := by
  intro ws
  induction ws with
  | nil => intro _; rfl
  | cons w rest ih =>
    intro h
    obtain ⟨hw, hsp⟩ := h w (List.mem_cons_self w rest)
    cases rest with
    | nil =>
      cases w with
      | nil => exact absurd rfl hw
      | cons c cs =>
        have hc : ¬isGoSpace c = true := by
          simp [hsp c (List.mem_cons_self c cs)]
        have hcs : ∀ x ∈ cs, (fun y => !isGoSpace y) x = true := by
          intro x hx
          simp [hsp x (List.mem_cons_of_mem c hx)]
        show goFieldsAux (c :: cs).length (c :: cs) = [c :: cs]
        rw [List.length_cons, goFieldsAux, if_neg hc]
        rw [takeWhile_all_true _ cs hcs, dropWhile_all_true _ cs hcs]
        cases cs.length <;> simp [goFieldsAux]
    | cons r rest' =>
      have hrest : ∀ x ∈ r :: rest', x ≠ [] ∧
          ∀ c ∈ x, isGoSpace c = false :=
        fun x hx => h x (List.mem_cons_of_mem w hx)
      have hjoin : joinSpace (w :: r :: rest') =
          w ++ ' ' :: joinSpace (r :: rest') := rfl
      have hwlen : 1 ≤ w.length := by
        cases w with
        | nil => exact absurd rfl hw
        | cons _ _ => simp
      have hlen : (w ++ ' ' :: joinSpace (r :: rest')).length =
          (w.length - 1 + (joinSpace (r :: rest')).length) + 2 := by
        simp only [List.length_append, List.length_cons]
        omega
      show goFieldsAux (joinSpace (w :: r :: rest')).length
        (joinSpace (w :: r :: rest')) = w :: r :: rest'
      rw [hjoin, hlen, goFieldsAux_peel w _ _ hw hsp]
      rw [goFieldsAux_fuel_irrel _ _ (joinSpace (r :: rest')).length
        (by omega) (le_refl _)]
      rw [show goFieldsAux (joinSpace (r :: rest')).length
          (joinSpace (r :: rest')) = goFields (joinSpace (r :: rest'))
        from rfl]
      rw [ih hrest]

theorem joinSpace_reverse_head :
    ∀ (ws : List GoStr), ws ≠ [] →
    (∀ w ∈ ws, w ≠ [] ∧ ∀ c ∈ w, isGoSpace c = false) →
    ∃ c t, (joinSpace ws).reverse = c :: t ∧ isGoSpace c = false := by
  intro ws
  induction ws with
  | nil => intro h; exact absurd rfl h
  | cons w rest ih =>
    intro _ h
    obtain ⟨hw, hsp⟩ := h w (List.mem_cons_self w rest)
    cases rest with
    | nil =>
      cases hwr : w.reverse with
      | nil => exact absurd (by simpa using hwr) hw
      | cons c t =>
        refine ⟨c, t, hwr, ?_⟩
        have : c ∈ w.reverse := by rw [hwr]; exact List.mem_cons_self c t
        exact hsp c (List.mem_reverse.mp this)
    | cons r rest' =>
      obtain ⟨c, t, hrev, hc⟩ := ih (by simp)
        (fun x hx => h x (List.mem_cons_of_mem w hx))
      refine ⟨c, t ++ ' ' :: w.reverse, ?_, hc⟩
      show (w ++ ' ' :: joinSpace (r :: rest')).reverse = _
      rw [List.reverse_append, List.reverse_cons, hrev]
      simp

theorem goTrimSpace_joinSpace (ws : List GoStr)
    (h : ∀ w ∈ ws, w ≠ [] ∧ ∀ c ∈ w, isGoSpace c = false) :
    goTrimSpace (joinSpace ws) = joinSpace ws := by
  cases ws with
  | nil => rfl
  | cons w rest =>
    obtain ⟨hw, hsp⟩ := h w (List.mem_cons_self w rest)
    have hfront : (joinSpace (w :: rest)).dropWhile isGoSpace =
        joinSpace (w :: rest) := by
      cases w with
      | nil => exact absurd rfl hw
      | cons c cs =>
        have hc : isGoSpace c = false := hsp c (List.mem_cons_self c cs)
        have hhead : ∃ t, joinSpace ((c :: cs) :: rest) = c :: t := by
          cases rest with
          | nil => exact ⟨cs, rfl⟩
          | cons r rest' => exact ⟨cs ++ ' ' :: joinSpace (r :: rest'), rfl⟩
        obtain ⟨t, ht⟩ := hhead
        rw [ht]
        exact List.dropWhile_cons_of_neg (by simp [hc])
    obtain ⟨c, t, hrev, hc⟩ := joinSpace_reverse_head (w :: rest)
      (by simp) h
    unfold goTrimSpace
    rw [hfront, hrev, List.dropWhile_cons_of_neg (by simp [hc]), ← hrev]
    exact List.reverse_reverse _

theorem stripFillerPrefixes_no_op (l : GoStr)
    (h : ∀ p ∈ fillerPrefixes,
      goHasPrefixChars (goToLower l) (goToLower p) = false) :
    fillerPrefixes.foldl stripPrefixStep l = l := by
  have h1 := h (gs "I am a") (by simp [fillerPrefixes])
  have h2 := h (gs "I am an") (by simp [fillerPrefixes])
  have h3 := h (gs "I specialize in") (by simp [fillerPrefixes])
  have h4 := h (gs "Field of") (by simp [fillerPrefixes])
  have h5 := h (gs "Area of") (by simp [fillerPrefixes])
  have e1 : stripPrefixStep l (gs "I am a") = l := by
    unfold stripPrefixStep
    rw [if_neg (by simp [h1])]
  have e2 : stripPrefixStep l (gs "I am an") = l := by
    unfold stripPrefixStep
    rw [if_neg (by simp [h2])]
  have e3 : stripPrefixStep l (gs "I specialize in") = l := by
    unfold stripPrefixStep
    rw [if_neg (by simp [h3])]
  have e4 : stripPrefixStep l (gs "Field of") = l := by
    unfold stripPrefixStep
    rw [if_neg (by simp [h4])]
  have e5 : stripPrefixStep l (gs "Area of") = l := by
    unfold stripPrefixStep
    rw [if_neg (by simp [h5])]
  show List.foldl stripPrefixStep l
    [gs "I am a", gs "I am an", gs "I specialize in", gs "Field of",
     gs "Area of"] = l
  simp only [List.foldl_cons, List.foldl_nil, e1, e2, e3, e4, e5]

/-- C9 counterexample: sanitization is not idempotent — stripping one
filler prefix can expose another.  `sanitize "I am a I am a X" =
"I am a X"`, but sanitizing that output again yields `"X"`. -/
theorem sanitize_not_idempotent_counterexample :
    sanitizeFieldOfExpertise (gs "I am a I am a X") = gs "I am a X" ∧
    sanitizeFieldOfExpertise
      (sanitizeFieldOfExpertise (gs "I am a I am a X")) = gs "X" ∧
    sanitizeFieldOfExpertise
        (sanitizeFieldOfExpertise (gs "I am a I am a X")) ≠
      sanitizeFieldOfExpertise (gs "I am a I am a X") := by
  refine ⟨by decide, by decide, by decide⟩

/-- C9 (amended): sanitization is idempotent on every input whose
sanitized form exposes no further filler prefix: if
`sanitizeFieldOfExpertise s` does not itself begin (case-insensitively)
with one of the filler phrases — in particular on every already-sanitized
field with no leading filler phrase and at most 5 tokens — then
sanitizing again returns it unchanged.  Unconditional idempotence fails
(see the counterexample) because one stripping pass can expose a new
filler prefix. -/
theorem sanitize_conditional_idempotent (s : GoStr)
    (h : ∀ p ∈ fillerPrefixes,
      goHasPrefixChars (goToLower (sanitizeFieldOfExpertise s))
        (goToLower p) = false) :
    sanitizeFieldOfExpertise (sanitizeFieldOfExpertise s) =
      sanitizeFieldOfExpertise s := by
  have hwords : ∀ w ∈ (goFields (fillerPrefixes.foldl stripPrefixStep
      (goTrimSpace s))).take 5, w ≠ [] ∧ ∀ c ∈ w, isGoSpace c = false :=
    fun w hw => goFieldsAux_words _ _ w ((List.take_sublist _ _).subset hw)
  have htw : sanitizeFieldOfExpertise s =
      joinSpace ((goFields (fillerPrefixes.foldl stripPrefixStep
        (goTrimSpace s))).take 5) := rfl
  have h1 : goTrimSpace (sanitizeFieldOfExpertise s) =
      sanitizeFieldOfExpertise s := by
    rw [htw]
    exact goTrimSpace_joinSpace _ hwords
  have h2 : fillerPrefixes.foldl stripPrefixStep
      (sanitizeFieldOfExpertise s) = sanitizeFieldOfExpertise s :=
    stripFillerPrefixes_no_op _ h
  have h3 : goFields (sanitizeFieldOfExpertise s) =
      (goFields (fillerPrefixes.foldl stripPrefixStep
        (goTrimSpace s))).take 5 := by
    rw [htw]
    exact goFields_joinSpace _ hwords
  show joinSpace ((goFields (fillerPrefixes.foldl stripPrefixStep
    (goTrimSpace (sanitizeFieldOfExpertise s)))).take 5) =
    sanitizeFieldOfExpertise s
  rw [h1, h2, h3, List.take_take]
  exact htw.symm

theorem sanitize_conditional_idempotent_witness :
    (∀ p ∈ fillerPrefixes,
      goHasPrefixChars
        (goToLower (sanitizeFieldOfExpertise (gs "Machine Learning")))
        (goToLower p) = false) ∧
    sanitizeFieldOfExpertise
        (sanitizeFieldOfExpertise (gs "Machine Learning")) =
      sanitizeFieldOfExpertise (gs "Machine Learning") :=
  ⟨by decide, sanitize_conditional_idempotent _ (by decide)⟩

end MeritDraft
